import Mathlib

/-!
Verification of the comment-extraction pipeline of the
`apify_youtube_comments` actor (TypeScript sources under `src/`).

The development is a shallow embedding: each TypeScript function of the
pipeline is translated into an executable Lean definition, and the frozen
claims about the program are settled as theorems about those definitions.

JavaScript-specific conventions used throughout the embedding:
* `undefined`/missing object fields are modelled with `Option`;
* string truthiness (`if (s)`) is `s ≠ ""` on present strings;
* a chain of optional accesses (`a?.b?.c`) is collapsed into a single
  `Option` field named after the full path, since the JS expression is
  `undefined` as soon as any level is missing;
* JS `number` results of the integer-producing paths are modelled as `ℤ`
  (all relevant code paths produce integers via `Math.round`/`parseInt`);
* floating-point intermediate values of `parseFloat` are modelled exactly
  as decimal fractions (`DecimalValue`): on every input reachable at the
  call sites (short digit strings produced by the regex character class
  `[0-9,.]`, scaled by a power-of-ten suffix) the double computation is
  exact.
-/

namespace YT

/-! ## JS primitive helpers -/

/-- Value of a list of decimal digit characters. -/
def digitsToNat (cs : List Char) : ℕ :=
  cs.foldl (fun acc c => acc * 10 + (c.toNat - '0'.toNat)) 0

/-- Truthiness of a JS string-or-undefined value. -/
def strTruthy : Option String → Bool
  | none => false
  | some s => !(s == "")

/-- `s.replace(/,/g, '')`. -/
def stripCommas (s : String) : String := String.mk (s.data.filter (· != ','))

/-- JS `s.trim()` (whitespace stripped from both ends). -/
def jsTrim (s : String) : String :=
  String.mk (((s.data.dropWhile (·.isWhitespace)).reverse.dropWhile
    (·.isWhitespace)).reverse)

/-- Exact value of a decimal literal `d₁…dₖ.f₁…fₘ`: the represented
number is `num / 10 ^ scale`.  This is the (exact) value whose `float`
approximation JS `parseFloat` returns; on every input reachable at the
call sites (the short digit strings produced by the regex class
`[\d,.]+`, times a power-of-ten suffix multiplier, then `Math.round`) the
double computation agrees with the exact one. -/
structure DecimalValue where
  num : ℕ
  scale : ℕ
deriving Repr, DecidableEq

/-- JS `parseFloat` restricted to the inputs reachable at the call sites:
strings over the characters `0-9` and `.` (the regex group `[\d,.]+` with
commas removed).  Parses `digits [ '.' digits ]` as a prefix; `none` is
`NaN` (no digit in integer or fraction part). -/
def jsParseFloatDigitsDots (s : String) : Option DecimalValue :=
  let cs := s.data
  let intPart := cs.takeWhile (·.isDigit)
  let rest := cs.drop intPart.length
  let fracPart :=
    match rest with
    | '.' :: r => r.takeWhile (·.isDigit)
    | _ => ([] : List Char)
  if intPart = [] ∧ fracPart = [] then none
  else some ⟨digitsToNat (intPart ++ fracPart), fracPart.length⟩

/-- `Math.round(num * mult)` for a parsed decimal `num` and a natural
suffix multiplier `mult`: `⌊num·mult + 1/2⌋` (JS rounds half toward +∞;
all values here are nonnegative), computed exactly as
`(2·n·mult + 10^s) / (2·10^s)` in natural division. -/
def jsRoundMul (d : DecimalValue) (mult : ℕ) : ℤ :=
  ((2 * (d.num * mult) + 10 ^ d.scale) / (2 * 10 ^ d.scale) : ℕ)

/-- JS `parseInt(s, 10)`: skip leading whitespace, optional sign, then a
nonempty digit prefix; `none` is `NaN`. -/
def jsParseIntDec (s : String) : Option ℤ :=
  let cs := s.data.dropWhile (·.isWhitespace)
  let signNeg : Bool := cs.head? = some '-'
  let cs' := match cs with
    | '-' :: r => r
    | '+' :: r => r
    | r => r
  let ds := cs'.takeWhile (·.isDigit)
  if ds = [] then none
  else some ((if signNeg then -1 else 1) * (digitsToNat ds : ℤ))

/-- Case-insensitive character equality. -/
def lowerEq (a b : Char) : Bool := a.toLower == b.toLower

/-- Case-insensitive "starts with" on character lists. -/
def startsWithCI : List Char → List Char → Bool
  | [], _ => true
  | _ :: _, [] => false
  | p :: ps, c :: cs => lowerEq p c && startsWithCI ps cs

/-! ## The shared magnitude decoder

`parseCommentCount` (metadata.ts), `parseVoteCount` and
`parseVoteCountFromA11y` (comments.ts) each inline the same regex
`^([\d,.]+)\s*([KMB])?$` followed by the same `switch` on the suffix.
`matchMagnitude` models that regex: the three character classes involved
(`[\d,.]`, whitespace, `[KMB]`) are pairwise disjoint, so greedy maximal
munch is equivalent to the backtracking engine. -/

/-- Character class `[\d,.]`. -/
def isNumChar (c : Char) : Bool := c.isDigit || c == ',' || c == '.'

/-- Character class `[KMB]` under the `/i` flag. -/
def isKMB (c : Char) : Bool :=
  c == 'K' || c == 'M' || c == 'B' || c == 'k' || c == 'm' || c == 'b'

/-- Model of `s.match(/^([\d,.]+)\s*([KMB])?$/i)`: on success returns the
first capture group and the optional raw suffix character. -/
def matchMagnitude (s : String) : Option (String × Option Char) :=
  let cs := s.data
  let numPart := cs.takeWhile isNumChar
  let rest := cs.drop numPart.length
  if numPart = [] then none
  else
    match rest.dropWhile (·.isWhitespace) with
    | [] => some (String.mk numPart, none)
    | [c] => if isKMB c then some (String.mk numPart, some c) else none
    | _ => none

/-- The `switch (suffix)` multiplier, after `?.toUpperCase()`. -/
def suffixMult (suffix : Option Char) : ℕ :=
  match suffix with
  | none => 1
  | some c =>
    if c.toUpper = 'K' then 1000
    else if c.toUpper = 'M' then 1000000
    else if c.toUpper = 'B' then 1000000000
    else 1

/-- `countStr.replace(/comments?/i, '')`: remove the first (leftmost,
greedy) case-insensitive occurrence of `comment` optionally followed by
`s`. -/
def removeCommentWord : List Char → List Char
  | [] => []
  | c :: cs =>
    if startsWithCI "comment".data (c :: cs) then
      let rest := (c :: cs).drop 7
      match rest with
      | r :: rs => if r == 's' || r == 'S' then rs else rest
      | [] => []
    else c :: removeCommentWord cs

/-- `parseCommentCount` (metadata.ts, lines 145-175): decodes strings like
`"1,234 Comments"` or `"1.2K"`; `null` on empty input or `NaN`. -/
def parseCommentCount (countStr : String) : Option ℤ :=
  if countStr == "" then none
  else
    let cleaned := jsTrim (String.mk (removeCommentWord countStr.data))
    match matchMagnitude cleaned with
    | some (numStr, suffix) =>
      match jsParseFloatDigitsDots (stripCommas numStr) with
      | none => none
      | some num => some (jsRoundMul num (suffixMult suffix))
    | none => jsParseIntDec (stripCommas cleaned)

/-- A JS text object `{ simpleText?, runs? }`. -/
structure TextRun where
  text : String
deriving Repr, DecidableEq

structure RunsOrSimple where
  simpleText : Option String := none
  runs : Option (List TextRun) := none
deriving Repr, DecidableEq

/-- `runs.map((r) => r.text).join('')`. -/
def joinRuns (rs : List TextRun) : String :=
  String.mk (rs.foldr (fun r acc => r.text.data ++ acc) [])

/-- `parseVoteCount` (comments.ts, lines 127-159): like
`parseCommentCount` but on a `voteCount` object and returning `0` instead
of `null` for missing/unparseable input. -/
def parseVoteCount (voteCount : Option RunsOrSimple) : ℤ :=
  match voteCount with
  | none => 0
  | some vc =>
    let text :=
      if strTruthy vc.simpleText then vc.simpleText.getD ""
      else match vc.runs with
        | some rs => joinRuns rs
        | none => ""
    if text == "" then 0
    else
      let cleaned := jsTrim text
      match matchMagnitude cleaned with
      | some (numStr, suffix) =>
        match jsParseFloatDigitsDots (stripCommas numStr) with
        | none => 0
        | some num => jsRoundMul num (suffixMult suffix)
      | none => (jsParseIntDec (stripCommas cleaned)).getD 0

/-- `\s*like` check used by the a11y regex after the numeric group. -/
def likeFollows (cs : List Char) : Bool :=
  startsWithCI "like".data (cs.dropWhile (·.isWhitespace))

/-- Attempt of `([\d,.]+[KMB]?)\s*like` anchored at the head of `cs`,
returning the capture group.  The greedy optional `[KMB]?` is tried first
with the suffix, then without (faithful backtracking order). -/
def tryA11yAt (cs : List Char) : Option (List Char) :=
  let num := cs.takeWhile isNumChar
  let rest := cs.drop num.length
  if num = [] then none
  else
    match rest with
    | k :: rest' =>
      if isKMB k && likeFollows rest' then some (num ++ [k])
      else if likeFollows rest then some num
      else none
    | [] => if likeFollows ([] : List Char) then some num else none

/-- Leftmost match of `/([\d,.]+[KMB]?)\s*like/i` over the string. -/
def a11yFind : List Char → Option (List Char)
  | [] => none
  | c :: cs =>
    match tryA11yAt (c :: cs) with
    | some g => some g
    | none => a11yFind cs

/-- Character class kept by `replace(/[^0-9KMB,.]/gi, '')`. -/
def isA11yKeptChar (c : Char) : Bool := isNumChar c || isKMB c

/-- Decode of a magnitude string returning `none` when the regex fails and
`some none` when the number is `NaN` — shared tail of both branches of
`parseVoteCountFromA11y`. -/
def a11yMagnitude (s : String) : Option (Option ℤ) :=
  match matchMagnitude s with
  | some (numStr, suffix) =>
    match jsParseFloatDigitsDots (stripCommas numStr) with
    | none => some none
    | some num => some (some (jsRoundMul num (suffixMult suffix)))
  | none => none

/-- `parseVoteCountFromA11y` (comments.ts, lines 190-245): extracts the
number out of a sentence-style accessibility label such as `"1.2K likes"`
before applying the magnitude table; `0` on failure. -/
def parseVoteCountFromA11y (a11yText : Option String) : ℤ :=
  match a11yText with
  | none => 0
  | some t =>
    if t == "" then 0
    else
      let fallback :=
        let numbersOnly := jsTrim (String.mk (t.data.filter isA11yKeptChar))
        if numbersOnly == "" then 0
        else
          match a11yMagnitude numbersOnly with
          | some (some v) => v
          | some none => 0
          | none => 0
      match a11yFind t.data with
      | some g =>
        match a11yMagnitude (jsTrim (String.mk g)) with
        | some (some v) => v
        | some none => 0
        | none => fallback
      | none => fallback

/-! ## Output data model (types/output.ts) -/

inductive CommentType where
  | comment
  | reply
deriving Repr, DecidableEq

/-- `CommentOutput` (output.ts). -/
structure CommentOutput where
  cid : String
  comment : String
  author : String
  videoId : String
  pageUrl : String
  title : String
  commentsCount : ℤ
  voteCount : ℤ
  replyCount : ℤ
  authorIsChannelOwner : Bool
  hasCreatorHeart : Bool
  type : CommentType
  replyToCid : Option String
  date : String
deriving Repr, DecidableEq

/-- `VideoMetadata` (output.ts). -/
structure VideoMetadata where
  videoId : String
  url : String
  finalUrl : String
  title : String
  commentsCount : Option ℤ
deriving Repr, DecidableEq

/-- `ErrorCategory` (types/run-summary.ts). -/
inductive ErrorCategory where
  | BLOCKED
  | TRANSIENT
  | PERMANENT
deriving Repr, DecidableEq

/-! ## Raw wire records (comments.ts interfaces) -/

/-- Legacy `commentRenderer`.  `actionButtons_creatorHeart` is the
presence bit `!!actionButtons?.commentActionButtonsRenderer?.creatorHeart`. -/
structure CommentRenderer where
  commentId : Option String := none
  contentText : Option RunsOrSimple := none
  authorText : Option RunsOrSimple := none
  voteCount : Option RunsOrSimple := none
  replyCount : Option ℤ := none
  authorIsChannelOwner : Option Bool := none
  actionButtons_creatorHeart : Bool := false
  publishedTimeText : Option RunsOrSimple := none
deriving Repr, DecidableEq

/-- `commentEntityPayload.properties`. -/
structure EntityProperties where
  commentId : Option String := none
  content_content : Option String := none
  publishedTime : Option String := none
deriving Repr, DecidableEq

/-- `commentEntityPayload.author`. -/
structure EntityAuthor where
  displayName : Option String := none
  isCreator : Option Bool := none
deriving Repr, DecidableEq

/-- `commentEntityPayload.toolbar`. -/
structure EntityToolbar where
  likeCountA11y : Option String := none
  replyCount : Option String := none
deriving Repr, DecidableEq

/-- New-format `commentEntityPayload`. -/
structure CommentEntityPayload where
  properties : Option EntityProperties := none
  author : Option EntityAuthor := none
  toolbar : Option EntityToolbar := none
  engagement_likeCount : Option ℤ := none
deriving Repr, DecidableEq

/-! ## Field extraction helpers (comments.ts) -/

/-- `extractCommentText`: `runs` joined first, then truthy `simpleText`,
else `''`. -/
def extractCommentText (contentText : Option RunsOrSimple) : String :=
  match contentText with
  | none => ""
  | some ct =>
    match ct.runs with
    | some rs => joinRuns rs
    | none => if strTruthy ct.simpleText then ct.simpleText.getD "" else ""

/-- `extractAuthorName`: truthy `simpleText` first, then `runs` joined,
else `''`. -/
def extractAuthorName (authorText : Option RunsOrSimple) : String :=
  match authorText with
  | none => ""
  | some at_ =>
    if strTruthy at_.simpleText then at_.simpleText.getD ""
    else match at_.runs with
      | some rs => joinRuns rs
      | none => ""

/-- `extractPublishDate`: `runs[0].text` when the runs array is nonempty,
then truthy `simpleText`, else `''`. -/
def extractPublishDate (publishedTimeText : Option RunsOrSimple) : String :=
  match publishedTimeText with
  | none => ""
  | some pt =>
    match pt.runs with
    | some (r :: _) => r.text
    | _ => if strTruthy pt.simpleText then pt.simpleText.getD "" else ""

/-- `extractComment` (comments.ts, lines 300-331): legacy-format record to
canonical comment.  Drops the record when the id, the text or the author
is missing/empty (`if (!cid)` and `if (!comment || !author)`). -/
def extractComment (renderer : CommentRenderer) (metadata : VideoMetadata)
    (type : CommentType) (parentCid : Option String) : Option CommentOutput :=
  match renderer.commentId with
  | none => none
  | some cid =>
    if cid = "" then none
    else
      let comment := extractCommentText renderer.contentText
      let author := extractAuthorName renderer.authorText
      if comment = "" ∨ author = "" then none
      else some {
        cid := cid
        comment := comment
        author := author
        videoId := metadata.videoId
        pageUrl := metadata.finalUrl
        title := metadata.title
        commentsCount := metadata.commentsCount.getD 0
        voteCount := parseVoteCount renderer.voteCount
        replyCount := renderer.replyCount.getD 0
        authorIsChannelOwner := renderer.authorIsChannelOwner.getD false
        hasCreatorHeart := renderer.actionButtons_creatorHeart
        type := type
        replyToCid := parentCid
        date := extractPublishDate renderer.publishedTimeText }

/-- `extractCommentFromEntityPayload` (comments.ts, lines 251-290):
entity-format record to canonical comment.  Drops the record only when the
id or the author is missing/empty; empty text is kept. -/
def extractCommentFromEntityPayload (payload : CommentEntityPayload)
    (metadata : VideoMetadata) (type : CommentType) (parentCid : Option String) :
    Option CommentOutput :=
  match payload.properties.bind (·.commentId) with
  | none => none
  | some cid =>
    if cid = "" then none
    else
      let comment := (payload.properties.bind (·.content_content)).getD ""
      let author := (payload.author.bind (·.displayName)).getD ""
      if author = "" then none
      else
        let a11y := parseVoteCountFromA11y (payload.toolbar.bind (·.likeCountA11y))
        let voteCount := if a11y ≠ 0 then a11y else payload.engagement_likeCount.getD 0
        let replyCountStr := (payload.toolbar.bind (·.replyCount)).getD "0"
        let replyCount := (jsParseIntDec (stripCommas replyCountStr)).getD 0
        some {
          cid := cid
          comment := comment
          author := author
          videoId := metadata.videoId
          pageUrl := metadata.finalUrl
          title := metadata.title
          commentsCount := metadata.commentsCount.getD 0
          voteCount := voteCount
          replyCount := replyCount
          authorIsChannelOwner := (payload.author.bind (·.isCreator)).getD false
          hasCreatorHeart := false
          type := type
          replyToCid := parentCid
          date := (payload.properties.bind (·.publishedTime)).getD "" }

/-- `validateCommentOutput` (comments.ts, lines 588-606).  In the typed
embedding the `typeof` checks hold by construction; what remains are the
non-emptiness checks on `cid`, `author`, `videoId` and `pageUrl`. -/
def validateCommentOutput (c : CommentOutput) : Bool :=
  c.cid ≠ "" && c.author ≠ "" && c.videoId ≠ "" && c.pageUrl ≠ ""

/-! ## API response shape (comments.ts) -/

/-- An item of `commentRepliesRenderer.contents` (only the direct
continuation-token path is read here). -/
structure ReplyTokenContent where
  continuationItemRenderer_continuationEndpoint_continuationCommand_token : Option String := none
deriving Repr, DecidableEq

/-- Legacy `commentThreadRenderer`. -/
structure CommentThreadRenderer where
  comment_commentRenderer : Option CommentRenderer := none
  replies_commentRepliesRenderer_contents : Option (List ReplyTokenContent) := none
deriving Repr, DecidableEq

/-- A `continuationItemRenderer`: direct endpoint token and the
`button.buttonRenderer.command` token path. -/
structure ContinuationItemRenderer where
  continuationEndpoint_continuationCommand_token : Option String := none
  button_buttonRenderer_command_continuationCommand_token : Option String := none
deriving Repr, DecidableEq

/-- One element of a `continuationItems` array. -/
structure ResponseItem where
  commentThreadRenderer : Option CommentThreadRenderer := none
  continuationItemRenderer : Option ContinuationItemRenderer := none
  commentRenderer : Option CommentRenderer := none
deriving Repr, DecidableEq

/-- One element of `onResponseReceivedEndpoints`. -/
structure Endpoint where
  reloadContinuationItemsCommand_continuationItems : Option (List ResponseItem) := none
  appendContinuationItemsAction_continuationItems : Option (List ResponseItem) := none
deriving Repr, DecidableEq

/-- One element of `entityBatchUpdate.mutations`. -/
structure EntityMutation where
  payload_commentEntityPayload : Option CommentEntityPayload := none
deriving Repr, DecidableEq

/-- Top level of one paginated-API response. -/
structure ApiResponse where
  onResponseReceivedEndpoints : Option (List Endpoint) := none
  frameworkUpdates_entityBatchUpdate_mutations : Option (List EntityMutation) := none
deriving Repr, DecidableEq

/-! ## Response parsing (comments.ts) -/

/-- First truthy token among `commentRepliesRenderer.contents`. -/
def firstReplyToken : List ReplyTokenContent → Option String
  | [] => none
  | c :: cs =>
    match c.continuationItemRenderer_continuationEndpoint_continuationCommand_token with
    | some t => if t ≠ "" then some t else firstReplyToken cs
    | none => firstReplyToken cs

/-- `extractReplyContinuationToken` (comments.ts, lines 336-347). -/
def extractReplyContinuationToken
    (replies : Option (List ReplyTokenContent)) : Option String :=
  match replies with
  | none => none
  | some contents => firstReplyToken contents

/-- JS `Map.set`: update in place when the key exists (keeping insertion
order), append otherwise. -/
def jsMapSet (m : List (String × String)) (k v : String) : List (String × String) :=
  if m.any (·.1 = k) then m.map (fun p => if p.1 = k then (k, v) else p)
  else m ++ [(k, v)]

/-- Accumulator of `parseCommentsFromResponse`: comment list, reply-token
map and the (last-written) next continuation token. -/
structure ParseAcc where
  comments : List CommentOutput := []
  replyTokens : List (String × String) := []
  nextToken : Option String := none
deriving Repr, DecidableEq

/-- Token updates performed by a `continuationItemRenderer`: the direct
endpoint path writes first, the button path overwrites it (last truthy
write wins, exactly the two `if (token)` assignments of the source). -/
def contTokenUpdate (cont : ContinuationItemRenderer) (old : Option String) :
    Option String :=
  let v1 :=
    match cont.continuationEndpoint_continuationCommand_token with
    | some t => if t ≠ "" then some t else old
    | none => old
  match cont.button_buttonRenderer_command_continuationCommand_token with
  | some t => if t ≠ "" then some t else v1
  | none => v1

/-- The thread-comment half of one `processCommentItems` iteration. -/
def processItemThread (m : VideoMetadata) (acc : ParseAcc) (item : ResponseItem) :
    ParseAcc :=
  match item.commentThreadRenderer with
  | none => acc
  | some thread =>
    match thread.comment_commentRenderer with
    | none => acc
    | some renderer =>
      match extractComment renderer m .comment none with
      | none => acc
      | some c =>
        let replyToken := extractReplyContinuationToken
          thread.replies_commentRepliesRenderer_contents
        let replyTokens' :=
          match replyToken with
          | some tok => if c.replyCount > 0 then jsMapSet acc.replyTokens c.cid tok
                        else acc.replyTokens
          | none => acc.replyTokens
        { acc with comments := acc.comments ++ [c], replyTokens := replyTokens' }

/-- Loop body of `processCommentItems` (comments.ts, lines 465-514) for a
single item: extract a thread comment (collecting its reply token), then
record any continuation token (endpoint path, then button path, last
write wins). -/
def processItem (m : VideoMetadata) (acc : ParseAcc) (item : ResponseItem) : ParseAcc :=
  let acc1 := processItemThread m acc item
  match item.continuationItemRenderer with
  | none => acc1
  | some cont => { acc1 with nextToken := contTokenUpdate cont acc1.nextToken }

/-- `processCommentItems` over an items array. -/
def processItems (m : VideoMetadata) : List ResponseItem → ParseAcc → ParseAcc
  | [], acc => acc
  | item :: rest, acc => processItems m rest (processItem m acc item)

/-- One endpoint of `parseCommentsFromResponse`: `reload` items first,
then `append` items. -/
def processEndpoint (m : VideoMetadata) (acc : ParseAcc) (e : Endpoint) : ParseAcc :=
  let acc1 :=
    match e.reloadContinuationItemsCommand_continuationItems with
    | some items => processItems m items acc
    | none => acc
  match e.appendContinuationItemsAction_continuationItems with
  | some items => processItems m items acc1
  | none => acc1

/-- All endpoints, in order. -/
def processEndpoints (m : VideoMetadata) : List Endpoint → ParseAcc → ParseAcc
  | [], acc => acc
  | e :: rest, acc => processEndpoints m rest (processEndpoint m acc e)

/-- The legacy-format half of `parseCommentsFromResponse`. -/
def legacyAcc (response : ApiResponse) (m : VideoMetadata) : ParseAcc :=
  match response.onResponseReceivedEndpoints with
  | none => {}
  | some endpoints => processEndpoints m endpoints {}

/-- Loop of `extractFromFrameworkUpdates` (comments.ts, lines 365-403):
entity mutations, skipping ids already seen, each accepted comment adding
its id to the seen set. -/
def entityLoop (m : VideoMetadata) :
    List EntityMutation → List CommentOutput → List String →
    List CommentOutput × List String
  | [], cs, ids => (cs, ids)
  | mu :: rest, cs, ids =>
    match mu.payload_commentEntityPayload with
    | none => entityLoop m rest cs ids
    | some pe =>
      match pe.properties.bind (·.commentId) with
      | none => entityLoop m rest cs ids
      | some pid =>
        if pid = "" then entityLoop m rest cs ids
        else if ids.contains pid then entityLoop m rest cs ids
        else
          match extractCommentFromEntityPayload pe m .comment none with
          | some c => entityLoop m rest (cs ++ [c]) (ids ++ [c.cid])
          | none => entityLoop m rest cs ids

/-- `extractFromFrameworkUpdates` (comments.ts, lines 365-403). -/
def extractFromFrameworkUpdates (response : ApiResponse) (m : VideoMetadata)
    (existingIds : List String) : List CommentOutput :=
  match response.frameworkUpdates_entityBatchUpdate_mutations with
  | none => []
  | some mutations => (entityLoop m mutations [] existingIds).1

/-- `ParseCommentsResult` (comments.ts). -/
structure ParseCommentsResult where
  comments : List CommentOutput
  nextContinuationToken : Option String
  replyContinuationTokens : List (String × String)
deriving Repr, DecidableEq

/-- `parseCommentsFromResponse` (comments.ts, lines 412-460): legacy
records first, then entity records restricted to unseen ids. -/
def parseCommentsFromResponse (response : ApiResponse) (m : VideoMetadata) :
    ParseCommentsResult :=
  let acc := legacyAcc response m
  let seenIds := acc.comments.map (·.cid)
  let entityComments := extractFromFrameworkUpdates response m seenIds
  { comments := acc.comments ++ entityComments
    nextContinuationToken := acc.nextToken
    replyContinuationTokens := acc.replyTokens }

/-- Result of `parseRepliesFromResponse`. -/
structure ParseRepliesResult where
  replies : List CommentOutput := []
  nextContinuationToken : Option String := none
deriving Repr, DecidableEq

/-- Inner item loop of `parseRepliesFromResponse` (comments.ts,
lines 544-574). -/
def replyItemStep (m : VideoMetadata) (parentCid : String)
    (st : ParseRepliesResult) (item : ResponseItem) : ParseRepliesResult :=
  let st1 :=
    match item.commentRenderer with
    | none => st
    | some r =>
      match extractComment r m .reply (some parentCid) with
      | some reply => { st with replies := st.replies ++ [reply] }
      | none => st
  match item.continuationItemRenderer with
  | none => st1
  | some cont =>
    { st1 with nextContinuationToken := contTokenUpdate cont st1.nextContinuationToken }

def replyItems (m : VideoMetadata) (parentCid : String) :
    List ResponseItem → ParseRepliesResult → ParseRepliesResult
  | [], st => st
  | item :: rest, st => replyItems m parentCid rest (replyItemStep m parentCid st item)

def replyEndpoints (m : VideoMetadata) (parentCid : String) :
    List Endpoint → ParseRepliesResult → ParseRepliesResult
  | [], st => st
  | e :: rest, st =>
    let st1 :=
      match e.appendContinuationItemsAction_continuationItems with
      | some items => replyItems m parentCid items st
      | none => st
    replyEndpoints m parentCid rest st1

/-- `parseRepliesFromResponse` (comments.ts, lines 523-582): only
`appendContinuationItemsAction` items are read, each bare
`commentRenderer` becomes a reply tagged with the parent id. -/
def parseRepliesFromResponse (response : ApiResponse) (m : VideoMetadata)
    (parentCid : String) : ParseRepliesResult :=
  match response.onResponseReceivedEndpoints with
  | none => {}
  | some endpoints => replyEndpoints m parentCid endpoints {}

/-! ## Substring search and error classification (utils/retry.ts) -/

/-- Occurrence of `pat` at some position of `cs`. -/
def containsAt : List Char → List Char → Bool
  | _, [] => true
  | [], _ :: _ => false
  | c :: cs, p :: ps => (c == p && (cs.take ps.length == ps)) || containsAt cs (p :: ps)

/-- JS `s.includes(pat)`. -/
def containsSubstr (s pat : String) : Bool :=
  pat.data = [] || containsAt s.data pat.data

/-- `classifyError` (retry.ts, lines 39-75).  `statusCode` is
number-or-null; the `statusCode && statusCode >= 500` guard needs a truthy
(nonzero, non-null) status. -/
def classifyError (statusCode : Option ℤ) (message : Option String) : ErrorCategory :=
  if statusCode = some 404 then .PERMANENT
  else
    let lowerMessage := String.mk ((message.getD "").data.map (·.toLower))
    if containsSubstr lowerMessage "comments disabled"
        || containsSubstr lowerMessage "comments are turned off"
        || containsSubstr lowerMessage "private video"
        || containsSubstr lowerMessage "video unavailable"
        || containsSubstr lowerMessage "age-restricted" then .PERMANENT
    else if statusCode = some 403 || statusCode = some 429 then .BLOCKED
    else if containsSubstr lowerMessage "captcha"
        || containsSubstr lowerMessage "bot detected" then .BLOCKED
    else if (match statusCode with
             | some sc => sc ≠ 0 && 500 ≤ sc && sc < 600
             | none => false) then .TRANSIENT
    else if containsSubstr lowerMessage "timeout"
        || containsSubstr lowerMessage "econnreset" then .TRANSIENT
    else .TRANSIENT

/-! ## Initial-state document (metadata.ts)

The `ytInitialData` object is navigated by `extractVideoTitle`,
`extractCommentsCount`, `extractCommentsContinuationToken` and
`areCommentsDisabled`.  Optional-access chains are collapsed into single
`Option` fields named after the full path. -/

/-- An element of `itemSectionRenderer.contents`, carrying the three
renderers the extractors look for. -/
structure ItemSectionContent where
  commentsEntryPointHeaderRenderer_commentCount_simpleText : Option String := none
  continuationItemRenderer_continuationEndpoint_continuationCommand_token : Option String := none
  messageRenderer_text_runs : Option (List TextRun) := none
deriving Repr, DecidableEq

/-- An element of `results.results.contents`. -/
structure ContentItem where
  videoPrimaryInfoRenderer_title_runs : Option (List TextRun) := none
  itemSectionRenderer_contents : Option (List ItemSectionContent) := none
deriving Repr, DecidableEq

/-- An element of the engagement panel's `sectionListRenderer.contents`. -/
structure PanelSection where
  itemSectionRenderer_contents : Option (List ItemSectionContent) := none
deriving Repr, DecidableEq

/-- An element of `engagementPanels`. -/
structure EngagementPanel where
  header_contextualInfo_runs : Option (List TextRun) := none
  content_sectionListRenderer_contents : Option (List PanelSection) := none
deriving Repr, DecidableEq

/-- The parsed `ytInitialData` document. -/
structure YtInitialData where
  contents_twoColumnWatchNextResults_results_results_contents :
    Option (List ContentItem) := none
  videoDetails_title : Option String := none
  playerOverlays_playerOverlayRenderer_videoInfo_runs : Option (List TextRun) := none
  engagementPanels : Option (List EngagementPanel) := none
deriving Repr, DecidableEq

/-! ## Metadata extractors (metadata.ts) -/

/-- Primary-info scan of `extractVideoTitle`: first item whose
`title.runs[0].text` is truthy. -/
def titleFromContents : List ContentItem → Option String
  | [] => none
  | item :: rest =>
    match item.videoPrimaryInfoRenderer_title_runs with
    | some (r :: _) => if r.text ≠ "" then some r.text else titleFromContents rest
    | _ => titleFromContents rest

/-- `extractVideoTitle` (metadata.ts, lines 38-79): primary-info render,
then `videoDetails.title`, then player-overlay runs, else `''`. -/
def extractVideoTitle (d : YtInitialData) : String :=
  let primary :=
    match d.contents_twoColumnWatchNextResults_results_results_contents with
    | some arr => titleFromContents arr
    | none => none
  match primary with
  | some t => t
  | none =>
    if strTruthy d.videoDetails_title then d.videoDetails_title.getD ""
    else
      match d.playerOverlays_playerOverlayRenderer_videoInfo_runs with
      | some (r :: _) => if r.text ≠ "" then r.text else ""
      | _ => ""

/-- Entry-point scan of `extractCommentsCount`: the first truthy
`commentCount.simpleText` is decoded and returned directly (even when the
decode yields `null`, skipping the panel fallback). -/
def entryPointCountInner : List ItemSectionContent → Option (Option ℤ)
  | [] => none
  | c :: rest =>
    match c.commentsEntryPointHeaderRenderer_commentCount_simpleText with
    | some s => if s ≠ "" then some (parseCommentCount s) else entryPointCountInner rest
    | none => entryPointCountInner rest

def entryPointCount : List ContentItem → Option (Option ℤ)
  | [] => none
  | item :: rest =>
    match item.itemSectionRenderer_contents with
    | some contents =>
      match entryPointCountInner contents with
      | some r => some r
      | none => entryPointCount rest
    | none => entryPointCount rest

/-- Engagement-panel scan of `extractCommentsCount`: first panel whose
contextual-info run decodes to a non-null count. -/
def panelCount : List EngagementPanel → Option ℤ
  | [] => none
  | p :: rest =>
    match p.header_contextualInfo_runs with
    | some (r :: _) =>
      if r.text ≠ "" then
        match parseCommentCount r.text with
        | some c => some c
        | none => panelCount rest
      else panelCount rest
    | _ => panelCount rest

/-- `extractCommentsCount` (metadata.ts, lines 85-140). -/
def extractCommentsCount (d : YtInitialData) : Option ℤ :=
  let fromEntry :=
    match d.contents_twoColumnWatchNextResults_results_results_contents with
    | some arr => entryPointCount arr
    | none => none
  match fromEntry with
  | some r => r
  | none =>
    match d.engagementPanels with
    | some ps => panelCount ps
    | none => none

/-- First truthy continuation token in a section's contents. -/
def tokenFromSectionContents : List ItemSectionContent → Option String
  | [] => none
  | c :: rest =>
    match c.continuationItemRenderer_continuationEndpoint_continuationCommand_token with
    | some t => if t ≠ "" then some t else tokenFromSectionContents rest
    | none => tokenFromSectionContents rest

def tokenFromContents : List ContentItem → Option String
  | [] => none
  | item :: rest =>
    match item.itemSectionRenderer_contents with
    | some contents =>
      match tokenFromSectionContents contents with
      | some t => some t
      | none => tokenFromContents rest
    | none => tokenFromContents rest

/-- The legacy two-column-results half of
`extractCommentsContinuationToken` (metadata.ts, lines 186-211). -/
def legacyContinuationToken (d : YtInitialData) : Option String :=
  match d.contents_twoColumnWatchNextResults_results_results_contents with
  | some arr => tokenFromContents arr
  | none => none

def tokenFromPanelSections : List PanelSection → Option String
  | [] => none
  | s :: rest =>
    match s.itemSectionRenderer_contents with
    | some contents =>
      match tokenFromSectionContents contents with
      | some t => some t
      | none => tokenFromPanelSections rest
    | none => tokenFromPanelSections rest

def tokenFromPanels : List EngagementPanel → Option String
  | [] => none
  | p :: rest =>
    match p.content_sectionListRenderer_contents with
    | some secs =>
      match tokenFromPanelSections secs with
      | some t => some t
      | none => tokenFromPanels rest
    | none => tokenFromPanels rest

/-- The engagement-panels half of `extractCommentsContinuationToken`
(metadata.ts, lines 214-243). -/
def panelContinuationToken (d : YtInitialData) : Option String :=
  match d.engagementPanels with
  | some ps => tokenFromPanels ps
  | none => none

/-- `extractCommentsContinuationToken` (metadata.ts, lines 181-249): the
function body scans the two-column-results contents first and returns on
the first token found there; the engagement panels are scanned only
afterwards. -/
def extractCommentsContinuationToken (d : YtInitialData) : Option String :=
  match legacyContinuationToken d with
  | some t => some t
  | none => panelContinuationToken d

/-- One `messageRenderer` check of `areCommentsDisabled`: joined runs,
lowercased, containing one of the three disabled phrases. -/
def messageSaysDisabled (runs : List TextRun) : Bool :=
  let message := String.mk ((joinRuns runs).data.map (·.toLower))
  containsSubstr message "comments are turned off"
    || containsSubstr message "comments disabled"
    || containsSubstr message "comments have been disabled"

def disabledInSection : List ItemSectionContent → Bool
  | [] => false
  | c :: rest =>
    (match c.messageRenderer_text_runs with
     | some runs => messageSaysDisabled runs
     | none => false) || disabledInSection rest

/-- `areCommentsDisabled` (metadata.ts, lines 289-330). -/
def areCommentsDisabled (d : YtInitialData) : Bool :=
  match d.contents_twoColumnWatchNextResults_results_results_contents with
  | some arr =>
    arr.any (fun item =>
      match item.itemSectionRenderer_contents with
      | some contents => disabledInSection contents
      | none => false)
  | none => false

/-! ## URL validation (utils/url.ts)

The four `YOUTUBE_PATTERNS` regexes are case-sensitive and anchored at the
start; the domain pre-check regex is case-insensitive.  Character classes
at the decision points are disjoint, so maximal munch models the greedy
optional groups; the one genuinely greedy part (`.*v=` in the watch
pattern) is modelled by a rightmost-match scan that stops at a newline
(`.` does not cross newlines). -/

/-- The id character class `[a-zA-Z0-9_-]`. -/
def idChar (c : Char) : Bool := c.isAlphanum || c == '_' || c == '-'

/-- `{11}` id chars at the head of the input. -/
def grabId (cs : List Char) : Option String :=
  let pre := cs.take 11
  if pre.length = 11 ∧ pre.all idChar then some (String.mk pre) else none

/-- Case-sensitive literal prefix strip. -/
def stripLit : List Char → List Char → Option (List Char)
  | [], cs => some cs
  | _ :: _, [] => none
  | p :: ps, c :: cs => if p = c then stripLit ps cs else none

/-- Case-insensitive literal prefix strip. -/
def stripLitCI : List Char → List Char → Option (List Char)
  | [], cs => some cs
  | _ :: _, [] => none
  | p :: ps, c :: cs => if lowerEq p c then stripLitCI ps cs else none

/-- `https?:\/\/` (case-sensitive form). -/
def stripScheme (cs : List Char) : Option (List Char) :=
  match stripLit "http".data cs with
  | none => none
  | some r =>
    let r' := match r with
      | 's' :: r2 => r2
      | _ => r
    stripLit "://".data r'

/-- `(?:www\.)?` (case-sensitive form). -/
def stripOptWww (cs : List Char) : List Char :=
  match stripLit "www.".data cs with
  | some r => r
  | none => cs

/-- The `.*v=([a-zA-Z0-9_-]{11})` tail of the watch pattern: rightmost
`v=` (greedy `.*`) reachable without crossing a newline, followed by 11 id
characters. -/
def scanVEq : List Char → Option String → Option String
  | [], best => best
  | c :: rest, best =>
    if c = '\n' then best
    else
      let best' :=
        match c, rest with
        | 'v', '=' :: after => match grabId after with
          | some g => some g
          | none => best
        | _, _ => best
      scanVEq rest best'

/-- Watch pattern `^https?:\/\/(?:www\.)?youtube\.com\/watch\?.*v=(id)`. -/
def matchWatch (cs : List Char) : Option String :=
  match stripScheme cs with
  | none => none
  | some r =>
    match stripLit "youtube.com/watch?".data (stripOptWww r) with
    | some r2 => scanVEq r2 none
    | none => none

/-- Short pattern `^https?:\/\/youtu\.be\/(id)` (note: no `www.` here). -/
def matchShort (cs : List Char) : Option String :=
  match stripScheme cs with
  | none => none
  | some r =>
    match stripLit "youtu.be/".data r with
    | some r2 => grabId r2
    | none => none

/-- Path pattern for `shorts/` and `embed/`. -/
def matchPathKind (path : String) (cs : List Char) : Option String :=
  match stripScheme cs with
  | none => none
  | some r =>
    match stripLit ("youtube.com/" ++ path ++ "/").data (stripOptWww r) with
    | some r2 => grabId r2
    | none => none

/-- `extractVideoId` (url.ts, lines 34-42): the four patterns in order. -/
def extractVideoId (url : String) : Option String :=
  let cs := url.data
  match matchWatch cs with
  | some g => some g
  | none =>
    match matchShort cs with
    | some g => some g
    | none =>
      match matchPathKind "shorts" cs with
      | some g => some g
      | none => matchPathKind "embed" cs

/-- The domain pre-check
`/^https?:\/\/(?:www\.)?(?:youtube\.com|youtu\.be)/i`. -/
def isYouTubeDomain (s : String) : Bool :=
  let step1 :=
    match stripLitCI "http".data s.data with
    | none => none
    | some r =>
      let r' := match r with
        | c :: r2 => if lowerEq 's' c then r2 else r
        | [] => r
      stripLitCI "://".data r'
  match step1 with
  | none => false
  | some r =>
    let r2 := match stripLitCI "www.".data r with
      | some x => x
      | none => r
    (stripLitCI "youtube.com".data r2).isSome || (stripLitCI "youtu.be".data r2).isSome

/-- `UrlValidationResult` (url.ts). -/
structure UrlValidationResult where
  isValid : Bool
  videoId : Option String
  normalizedUrl : Option String
  error : Option String
deriving Repr, DecidableEq

/-- `validateYouTubeUrl` (url.ts, lines 49-91).  The `typeof` guard is
vacuous in the typed embedding; `!url` is the empty-string check. -/
def validateYouTubeUrl (url : String) : UrlValidationResult :=
  if url = "" then
    { isValid := false, videoId := none, normalizedUrl := none
      error := some "URL is required and must be a string" }
  else
    let trimmedUrl := jsTrim url
    if !isYouTubeDomain trimmedUrl then
      { isValid := false, videoId := none, normalizedUrl := none
        error := some ("Invalid YouTube URL: " ++ trimmedUrl
          ++ ". Expected format: youtube.com/watch?v=... or youtu.be/...") }
    else
      match extractVideoId trimmedUrl with
      | none =>
        { isValid := false, videoId := none, normalizedUrl := none
          error := some ("Could not extract video ID from URL: " ++ trimmedUrl
            ++ ". Expected format: youtube.com/watch?v=VIDEO_ID") }
      | some videoId =>
        { isValid := true, videoId := some videoId
          normalizedUrl := some ("https://www.youtube.com/watch?v=" ++ videoId)
          error := none }

/-- Entry of the `valid` partition of `validateUrls`. -/
structure ValidUrlEntry where
  url : String
  videoId : String
  normalizedUrl : String
deriving Repr, DecidableEq

/-- Entry of the `invalid` partition of `validateUrls`. -/
structure InvalidUrlEntry where
  url : String
  error : String
deriving Repr, DecidableEq

/-- `validateUrls` (url.ts, lines 116-140): order-preserving partition of
the input list. -/
def validateUrls : List String → List ValidUrlEntry × List InvalidUrlEntry
  | [] => ([], [])
  | u :: rest =>
    let result := validateYouTubeUrl u
    let (vs, ivs) := validateUrls rest
    if result.isValid && strTruthy result.videoId && strTruthy result.normalizedUrl then
      ({ url := u, videoId := result.videoId.getD ""
         normalizedUrl := result.normalizedUrl.getD "" } :: vs, ivs)
    else
      (vs, { url := u
             error := if strTruthy result.error then result.error.getD ""
                      else "Unknown validation error" } :: ivs)

/-! ## Pagination engine (crawler.ts)

`extractComments` is modelled operationally.  The network and the clock
are an explicit environment:

* `fetch tok` is the combined outcome of
  `withRetry(() => fetchComments(tok))` observed by the loop: a parsed
  response (`ok`), a retry-wrapper failure (`fail`, i.e.
  `!result.success || !result.data`), or an error propagating to the
  surrounding `catch` (`thrown`);
* `page` is the combined outcome of the bootstrap
  (`withRetry(fetchVideoPage)` plus `extractYtInitialData`) — the HTML
  regex scan itself is abstracted as the environment-supplied
  `Option YtInitialData`;
* `clock n` is the value of the n-th `Date.now()` call; calls are counted
  by `clockIdx` in program order (one at extraction start, one per
  top-loop iteration, one per reply-parent, one per reply page).

`while` loops take a fuel argument; exhausted fuel simply stops the loop,
and every concrete scenario below supplies ample fuel.  `fetchCount` is a
ghost counter of issued comment-API fetches (it influences nothing). -/

/-- Timeout and cap constants of crawler.ts. -/
def TOTAL_EXTRACTION_TIMEOUT_MS : ℤ := 300000
def FIRST_BATCH_DEADLINE_MS : ℤ := 30000
def MAX_CONSECUTIVE_EMPTY_PAGES : ℕ := 3

/-- `Number.MAX_SAFE_INTEGER`. -/
def jsMaxSafeInteger : ℕ := 9007199254740991

/-- Outcome of a comment-API fetch as seen by the pagination loops. -/
inductive FetchOutcome where
  | ok (resp : ApiResponse)
  | fail
  | thrown (statusCode : Option ℤ) (message : String)
deriving Repr

/-- Outcome of the bootstrap page fetch + initial-data scan. -/
inductive PageBootstrap where
  | fetchFailed (message : Option String) (category : Option ErrorCategory)
  | fetchThrown (statusCode : Option ℤ) (message : String)
  | html (data : Option YtInitialData)
deriving Repr

/-- External environment of one extraction. -/
structure Env where
  page : PageBootstrap
  fetch : String → FetchOutcome
  clock : ℕ → ℤ

/-- `ExtractCommentsOptions` (crawler.ts); `sortBy` is omitted because
`getSortedContinuationToken` is the identity on the token. -/
structure ExtractCommentsOptions where
  videoId : String
  videoUrl : String
  originalUrl : String
  maxComments : ℤ
  includeReplies : Bool := true
deriving Repr

/-- `ExtractCommentsResult` (crawler.ts). -/
structure ExtractCommentsResult where
  comments : List CommentOutput
  metadata : VideoMetadata
  commentCount : ℕ
  replyCount : ℕ
  completed : Bool
  error : Option String := none
  errorCategory : Option ErrorCategory := none
deriving Repr, DecidableEq

/-- `createEmptyMetadata` (crawler.ts, lines 500-508). -/
def createEmptyMetadata (videoId originalUrl : String) : VideoMetadata :=
  { videoId := videoId, url := originalUrl
    finalUrl := "https://www.youtube.com/watch?v=" ++ videoId
    title := "", commentsCount := none }

/-- Mutable state of the pagination loops (`PaginationState`).
`stopped` models a `break` out of the top-level loop; `fetchCount` is the
ghost fetch counter. -/
structure EngineState where
  comments : List CommentOutput := []
  replyCountAcc : ℕ := 0
  token : Option String := none
  replyTokens : List (String × String) := []
  consecutiveEmptyPages : ℕ := 0
  timedOut : Bool := false
  firstBatchReceived : Bool := false
  clockIdx : ℕ := 0
  stopped : Bool := false
  fetchCount : ℕ := 0
deriving Repr

/-- The per-page append loop (crawler.ts, lines 395-400): stop at the cap,
push only comments passing `validateCommentOutput`. -/
def appendUpTo (effMax : ℕ) (cs : List CommentOutput) : List CommentOutput → List CommentOutput
  | [] => cs
  | c :: rest =>
    if effMax ≤ cs.length then cs
    else if validateCommentOutput c then appendUpTo effMax (cs ++ [c]) rest
    else appendUpTo effMax cs rest

/-- Reply-page append loop (crawler.ts, lines 461-467), also counting the
pushed replies. -/
def appendRepliesUpTo (effMax : ℕ) (cs : List CommentOutput) :
    List CommentOutput → List CommentOutput × ℕ
  | [] => (cs, 0)
  | c :: rest =>
    if effMax ≤ cs.length then (cs, 0)
    else if validateCommentOutput c then
      let (cs', n) := appendRepliesUpTo effMax (cs ++ [c]) rest
      (cs', n + 1)
    else appendRepliesUpTo effMax cs rest

/-- Merge of discovered reply tokens into the engine's map (crawler.ts,
lines 403-405). -/
def mergeTokens (acc : List (String × String)) : List (String × String) → List (String × String)
  | [] => acc
  | (k, v) :: rest => mergeTokens (jsMapSet acc k v) rest

/-- Outcome of one iteration body of a pagination loop: `exit` is a
`break` (or a timeout mark), `next` re-enters the loop. -/
inductive IterOut where
  | exit (s : EngineState)
  | next (s : EngineState)

/-- Body of one top-level loop iteration (crawler.ts, lines 355-422),
entered with the loop conditions already checked: timeout checks, the
retried fetch, parse, empty-page accounting, capped append, reply-token
merge and token advance. -/
def topBody (env : Env) (m : VideoMetadata) (effMax : ℕ) (startTime : ℤ)
    (s : EngineState) (t : String) : IterOut :=
  let now := env.clock s.clockIdx
  let s0 := { s with clockIdx := s.clockIdx + 1 }
  if TOTAL_EXTRACTION_TIMEOUT_MS ≤ now - startTime then
    .exit { s0 with timedOut := true, stopped := true }
  else if !s0.firstBatchReceived && FIRST_BATCH_DEADLINE_MS ≤ now - startTime then
    .exit { s0 with timedOut := true, stopped := true }
  else
    let s1 := { s0 with fetchCount := s0.fetchCount + 1 }
    match env.fetch t with
    | .fail => .exit { s1 with stopped := true }
    | .thrown _ _ => .exit { s1 with stopped := true }
    | .ok resp =>
      let parsed := parseCommentsFromResponse resp m
      if parsed.comments.length = 0 ∧
          MAX_CONSECUTIVE_EMPTY_PAGES ≤ s1.consecutiveEmptyPages + 1 then
        .exit { s1 with consecutiveEmptyPages := s1.consecutiveEmptyPages + 1
                        stopped := true }
      else
        let s2 := { s1 with
          consecutiveEmptyPages :=
            if parsed.comments.length = 0 then s1.consecutiveEmptyPages + 1 else 0
          firstBatchReceived :=
            if parsed.comments.length = 0 then s1.firstBatchReceived else true }
        .next { s2 with
          comments := appendUpTo effMax s2.comments parsed.comments
          replyTokens := mergeTokens s2.replyTokens parsed.replyContinuationTokens
          token := parsed.nextContinuationToken }

/-- Top-level pagination loop (crawler.ts, lines 354-423). -/
def runTopLoop (env : Env) (m : VideoMetadata) (effMax : ℕ) (startTime : ℤ) :
    ℕ → EngineState → EngineState
  | 0, s => s
  | fuel + 1, s =>
    if s.stopped then s
    else
      match s.token with
      | none => s
      | some t =>
        if t = "" then s
        else if effMax ≤ s.comments.length then s
        else
          match topBody env m effMax startTime s t with
          | .exit s1 => s1
          | .next s1 => runTopLoop env m effMax startTime fuel s1

/-- Outcome of one reply-page iteration: `exit` stops this parent's
pagination, `next` re-enters with the following token. -/
inductive ReplyIterOut where
  | exit (s : EngineState)
  | next (s : EngineState) (tok : Option String)

/-- Body of one reply-page iteration (crawler.ts, lines 444-472). -/
def replyBody (env : Env) (m : VideoMetadata) (effMax : ℕ) (startTime : ℤ)
    (parentCid : String) (s : EngineState) (t : String) : ReplyIterOut :=
  let now := env.clock s.clockIdx
  let s0 := { s with clockIdx := s.clockIdx + 1 }
  if TOTAL_EXTRACTION_TIMEOUT_MS ≤ now - startTime then
    .exit { s0 with timedOut := true }
  else
    let s1 := { s0 with fetchCount := s0.fetchCount + 1 }
    match env.fetch t with
    | .fail => .exit s1
    | .thrown _ _ => .exit s1
    | .ok resp =>
      let parsed := parseRepliesFromResponse resp m parentCid
      let pair := appendRepliesUpTo effMax s1.comments parsed.replies
      .next { s1 with comments := pair.1, replyCountAcc := s1.replyCountAcc + pair.2 }
        parsed.nextContinuationToken

/-- Inner reply-page loop for one parent (crawler.ts, lines 443-474). -/
def runReplyPages (env : Env) (m : VideoMetadata) (effMax : ℕ) (startTime : ℤ)
    (parentCid : String) : ℕ → Option String → EngineState → EngineState
  | 0, _, s => s
  | _ + 1, none, s => s
  | fuel + 1, some t, s =>
    if t = "" then s
    else if effMax ≤ s.comments.length then s
    else
      match replyBody env m effMax startTime parentCid s t with
      | .exit s1 => s1
      | .next s1 tok => runReplyPages env m effMax startTime parentCid fuel tok s1

/-- Outer reply loop over collected parent tokens (crawler.ts,
lines 427-477). -/
def runReplyParents (env : Env) (m : VideoMetadata) (effMax : ℕ) (startTime : ℤ)
    (innerFuel : ℕ) : List (String × String) → EngineState → EngineState
  | [], s => s
  | (pcid, tok) :: rest, s =>
    if effMax ≤ s.comments.length then s
    else
      let now := env.clock s.clockIdx
      let s0 := { s with clockIdx := s.clockIdx + 1 }
      if TOTAL_EXTRACTION_TIMEOUT_MS ≤ now - startTime then
        { s0 with timedOut := true }
      else
        match s0.comments.find? (fun c => c.cid == pcid) with
        | none => runReplyParents env m effMax startTime innerFuel rest s0
        | some p =>
          if p.replyCount = 0 then runReplyParents env m effMax startTime innerFuel rest s0
          else
            let s1 := runReplyPages env m effMax startTime pcid innerFuel (some tok) s0
            if s1.timedOut then s1
            else runReplyParents env m effMax startTime innerFuel rest s1

/-- Initial `PaginationState` (one `Date.now()` call already consumed for
`extractionStartTime`). -/
def initState (token0 : Option String) : EngineState :=
  { token := token0, clockIdx := 1 }

/-- Both pagination phases starting from the initial token. -/
def runEngine (env : Env) (m : VideoMetadata) (effMax : ℕ)
    (includeReplies : Bool) (fuelTop fuelReply : ℕ) (token0 : Option String) :
    EngineState :=
  let startTime := env.clock 0
  let sTop := runTopLoop env m effMax startTime fuelTop (initState token0)
  if includeReplies && decide (sTop.comments.length < effMax) && !sTop.timedOut then
    runReplyParents env m effMax startTime fuelReply sTop.replyTokens sTop
  else sTop

/-- `effectiveMaxComments` (crawler.ts, line 251). -/
def effMaxOf (opts : ExtractCommentsOptions) : ℕ :=
  if opts.maxComments > 0 then opts.maxComments.toNat else jsMaxSafeInteger

/-- The `VideoMetadata` assembled on the successful bootstrap path
(crawler.ts, lines 320-326). -/
def metadataOf (opts : ExtractCommentsOptions) (yt : YtInitialData) : VideoMetadata :=
  { videoId := opts.videoId, url := opts.originalUrl, finalUrl := opts.videoUrl
    title := extractVideoTitle yt, commentsCount := extractCommentsCount yt }

/-- `extractComments` (crawler.ts, lines 238-495). -/
def extractComments (env : Env) (opts : ExtractCommentsOptions)
    (fuelTop fuelReply : ℕ) : ExtractCommentsResult :=
  let effMax : ℕ := effMaxOf opts
  match env.page with
  | .fetchFailed msg cat =>
    { comments := [], metadata := createEmptyMetadata opts.videoId opts.originalUrl
      commentCount := 0, replyCount := 0, completed := false
      error := some (if strTruthy msg then msg.getD "" else "Failed to fetch video page")
      errorCategory := some (cat.getD .TRANSIENT) }
  | .fetchThrown sc msg =>
    { comments := [], metadata := createEmptyMetadata opts.videoId opts.originalUrl
      commentCount := 0, replyCount := 0, completed := false
      error := some msg, errorCategory := some (classifyError sc (some msg)) }
  | .html none =>
    { comments := [], metadata := createEmptyMetadata opts.videoId opts.originalUrl
      commentCount := 0, replyCount := 0, completed := false
      error := some "Failed to extract ytInitialData from video page"
      errorCategory := some .PERMANENT }
  | .html (some yt) =>
    if areCommentsDisabled yt then
      { comments := [], metadata := createEmptyMetadata opts.videoId opts.originalUrl
        commentCount := 0, replyCount := 0, completed := true
        error := some ("Comments disabled for video " ++ opts.videoId)
        errorCategory := some .PERMANENT }
    else
      let metadata := metadataOf opts yt
      let continuationToken := extractCommentsContinuationToken yt
      if !strTruthy continuationToken then
        { comments := [], metadata := metadata
          commentCount := 0, replyCount := 0, completed := true }
      else
        let sFin := runEngine env metadata effMax opts.includeReplies
          fuelTop fuelReply continuationToken
        let completed := !sFin.timedOut
          && (!strTruthy sFin.token || decide (effMax ≤ sFin.comments.length))
        { comments := sFin.comments, metadata := metadata
          commentCount := sFin.comments.length, replyCount := sFin.replyCountAcc
          completed := completed }

/-! ## Concrete scenario inputs

Small concrete documents, responses and environments used to instantiate
the claims: a well-formed renderer factory, page responses with a given
comment-id list and next token, and initial-state documents carrying a
continuation token, a disabled message, or tokens in both locations. -/

/-- A well-formed legacy renderer with the given id. -/
def mkRenderer (cid : String) : CommentRenderer :=
  { commentId := some cid
    contentText := some { runs := some [⟨"hello"⟩] }
    authorText := some { simpleText := some "alice" } }

/-- A `commentThreadRenderer` item around `mkRenderer cid`. -/
def mkItem (cid : String) : ResponseItem :=
  { commentThreadRenderer := some { comment_commentRenderer := some (mkRenderer cid) } }

/-- A `continuationItemRenderer` item carrying the next-page token. -/
def contItem (tok : String) : ResponseItem :=
  { continuationItemRenderer :=
      some { continuationEndpoint_continuationCommand_token := some tok } }

/-- An append-action page with the given comment ids and next token. -/
def mkPage (cids : List String) (next : String) : ApiResponse :=
  { onResponseReceivedEndpoints := some
      [ { appendContinuationItemsAction_continuationItems :=
            some (cids.map mkItem ++ [contItem next]) } ] }

/-- Initial-state document whose comments section carries token `t1`. -/
def ytWithToken : YtInitialData :=
  { contents_twoColumnWatchNextResults_results_results_contents := some
      [ { itemSectionRenderer_contents := some
            [ { continuationItemRenderer_continuationEndpoint_continuationCommand_token :=
                  some "t1" } ] } ] }

/-- Initial-state document with a "Comments are turned off" message. -/
def ytDisabled : YtInitialData :=
  { contents_twoColumnWatchNextResults_results_results_contents := some
      [ { itemSectionRenderer_contents := some
            [ { messageRenderer_text_runs := some [⟨"Comments are turned off"⟩] } ] } ] }

/-- Initial-state document carrying a continuation token in both the
legacy two-column location and the engagement-panel location. -/
def ytBothTokens : YtInitialData :=
  { contents_twoColumnWatchNextResults_results_results_contents := some
      [ { itemSectionRenderer_contents := some
            [ { continuationItemRenderer_continuationEndpoint_continuationCommand_token :=
                  some "legacyTok" } ] } ]
    engagementPanels := some
      [ { content_sectionListRenderer_contents := some
            [ { itemSectionRenderer_contents := some
                  [ { continuationItemRenderer_continuationEndpoint_continuationCommand_token :=
                        some "panelTok" } ] } ] } ] }

/-- Standard options: cap 7,  real-looking urls. -/
def optsCap7 : ExtractCommentsOptions :=
  { videoId := "dQw4w9WgXcQ"
    videoUrl := "https://www.youtube.com/watch?v=dQw4w9WgXcQ"
    originalUrl := "https://youtu.be/dQw4w9WgXcQ"
    maxComments := 7 }

/-- Same options without a cap (`maxComments = 0` means unlimited). -/
def optsUnlimited : ExtractCommentsOptions := { optsCap7 with maxComments := 0 }

/-- The metadata the bootstrap assembles for `ytWithToken` + `optsCap7`. -/
def metaStd : VideoMetadata := metadataOf optsCap7 ytWithToken

/-- Page yields `[5][5]` with tokens chained `t1 → t2 → t3`. -/
def fetchTwoPages : String → FetchOutcome
  | "t1" => .ok (mkPage ["c1", "c2", "c3", "c4", "c5"] "t2")
  | "t2" => .ok (mkPage ["c6", "c7", "c8", "c9", "c10"] "t3")
  | _ => .fail

def envTwoPages : Env :=
  { page := .html (some ytWithToken), fetch := fetchTwoPages, clock := fun _ => 0 }

/-- Page yields `[5][5][0][0][0][5]` with tokens chained `t1 … t7`. -/
def fetchEmptyRun : String → FetchOutcome
  | "t1" => .ok (mkPage ["c1", "c2", "c3", "c4", "c5"] "t2")
  | "t2" => .ok (mkPage ["c6", "c7", "c8", "c9", "c10"] "t3")
  | "t3" => .ok (mkPage [] "t4")
  | "t4" => .ok (mkPage [] "t5")
  | "t5" => .ok (mkPage [] "t6")
  | "t6" => .ok (mkPage ["c11", "c12", "c13", "c14", "c15"] "t7")
  | _ => .fail

def envEmptyRun : Env :=
  { page := .html (some ytWithToken), fetch := fetchEmptyRun, clock := fun _ => 0 }

/-- Page yields `[5][0][0][5][0][0][0]` (then a trailing 5-item page):
distinguishes a counter that resets on non-zero yield (aborts only after
the seventh page) from a cumulative one. -/
def fetchResetRun : String → FetchOutcome
  | "t1" => .ok (mkPage ["c1", "c2", "c3", "c4", "c5"] "t2")
  | "t2" => .ok (mkPage [] "t3")
  | "t3" => .ok (mkPage [] "t4")
  | "t4" => .ok (mkPage ["c6", "c7", "c8", "c9", "c10"] "t5")
  | "t5" => .ok (mkPage [] "t6")
  | "t6" => .ok (mkPage [] "t7")
  | "t7" => .ok (mkPage [] "t8")
  | "t8" => .ok (mkPage ["c11", "c12", "c13", "c14", "c15"] "t9")
  | _ => .fail

def envResetRun : Env :=
  { page := .html (some ytWithToken), fetch := fetchResetRun, clock := fun _ => 0 }

/-- One good page, then the retry wrapper reports failure for `t2`. -/
def fetchThenFail : String → FetchOutcome
  | "t1" => .ok (mkPage ["c1", "c2"] "t2")
  | _ => .fail

def envThenFail : Env :=
  { page := .html (some ytWithToken), fetch := fetchThenFail, clock := fun _ => 0 }

/-- Bootstrap sees the disabled-comments document. -/
def envDisabled : Env :=
  { page := .html (some ytDisabled), fetch := fun _ => .fail, clock := fun _ => 0 }

/-- An entity payload with the given id (author `bob`, text
`entity text`). -/
def mkEntityPayload (cid : String) : CommentEntityPayload :=
  { properties := some { commentId := some cid, content_content := some "entity text" }
    author := some { displayName := some "bob" } }

/-- A response in which the legacy thread and an entity record share id
`x1`, and a second entity record `x2` is new. -/
def respSharedId : ApiResponse :=
  { onResponseReceivedEndpoints := some
      [ { reloadContinuationItemsCommand_continuationItems := some [mkItem "x1"] } ]
    frameworkUpdates_entityBatchUpdate_mutations := some
      [ { payload_commentEntityPayload := some (mkEntityPayload "x1") }
      , { payload_commentEntityPayload := some (mkEntityPayload "x2") } ] }

/-- A legacy renderer whose author resolves but whose text is empty. -/
def emptyTextRenderer : CommentRenderer :=
  { commentId := some "c1"
    contentText := some { runs := some [] }
    authorText := some { simpleText := some "alice" } }

/-- An entity record whose author resolves but whose text is absent. -/
def emptyTextEntity : CommentEntityPayload :=
  { properties := some { commentId := some "e1" }
    author := some { displayName := some "bob" } }

/-! ## Derived predicates used by the claims -/

/-- The push condition of `validateUrls`. -/
def validPushCond (u : String) : Bool :=
  (validateYouTubeUrl u).isValid && strTruthy (validateYouTubeUrl u).videoId
    && strTruthy (validateYouTubeUrl u).normalizedUrl

/-- The comment the legacy half of `respSharedId` parses for id `x1`. -/
def legacyX1 : CommentOutput :=
  { cid := "x1", comment := "hello", author := "alice"
    videoId := "dQw4w9WgXcQ"
    pageUrl := "https://www.youtube.com/watch?v=dQw4w9WgXcQ"
    title := "", commentsCount := 0, voteCount := 0, replyCount := 0
    authorIsChannelOwner := false, hasCreatorHeart := false
    type := .comment, replyToCid := none, date := "" }

/-- The reply-parent invariant: every reply in the list points (via
`replyToCid`) at a top-level (`type = comment`) entry occurring strictly
earlier in the same list. -/
def ReplyParentInv (cs : List CommentOutput) : Prop :=
  ∀ pre c post, cs = pre ++ c :: post → c.type = CommentType.reply →
    ∃ p, p ∈ pre ∧ p.type = CommentType.comment ∧ c.replyToCid = some p.cid

/-- Field facts every parsed comment record satisfies (relative to the
metadata it was stamped with). -/
def StampedComment (m : VideoMetadata) (ty : CommentType) (pc : Option String)
    (c : CommentOutput) : Prop :=
  c.type = ty ∧ c.replyToCid = pc ∧ c.cid ≠ "" ∧ c.author ≠ "" ∧
    c.videoId = m.videoId ∧ c.pageUrl = m.finalUrl

/-- The metadata fields `validateCommentOutput` checks on every record. -/
def MetaOk (m : VideoMetadata) : Prop := m.videoId ≠ "" ∧ m.finalUrl ≠ ""

/-- Parser-accumulator invariant: every accumulated comment is a stamped
top-level comment, and every reply-token key belongs to one of them. -/
def AccOk (m : VideoMetadata) (acc : ParseAcc) : Prop :=
  (∀ c ∈ acc.comments, StampedComment m CommentType.comment none c) ∧
  (∀ kv ∈ acc.replyTokens, ∃ c, c ∈ acc.comments ∧ c.cid = kv.1 ∧
    StampedComment m CommentType.comment none c)

/-- Top-loop state invariant: accumulated comments are stamped top-level
comments, and (for usable metadata, below the cap) every reply-token key
has a matching top-level comment already accumulated. -/
def TopInv (m : VideoMetadata) (effMax : ℕ) (s : EngineState) : Prop :=
  (∀ c ∈ s.comments, StampedComment m CommentType.comment none c) ∧
  (∀ kv ∈ s.replyTokens, MetaOk m → s.comments.length < effMax →
    ∃ c, c ∈ s.comments ∧ c.cid = kv.1 ∧ c.type = CommentType.comment)

/-! # Claims -/

/-- C8: the shared magnitude decoder maps `"234"→234`, `"1,234"→1234`,
`"1.2K"→1200`, `"45K"→45000`, `"2.5M"→2500000`, `"2B"→2000000000`, with
`K`/`M`/`B` case-insensitive; empty/absent input decodes to `null` in the
comment-count (metadata) context and to `0` in the vote-count context, and
the entity-format decoder first pulls the number out of a sentence-style
accessibility label (`"1.2K likes"`) before applying the same table. -/
theorem magnitude_decoder_table :
    parseCommentCount "234" = some 234 ∧
    parseCommentCount "1,234" = some 1234 ∧
    parseCommentCount "1.2K" = some 1200 ∧
    parseCommentCount "45K" = some 45000 ∧
    parseCommentCount "2.5M" = some 2500000 ∧
    parseCommentCount "2B" = some 2000000000 ∧
    parseCommentCount "1.2k" = some 1200 ∧
    parseCommentCount "45k" = some 45000 ∧
    parseCommentCount "2.5m" = some 2500000 ∧
    parseCommentCount "2b" = some 2000000000 ∧
    parseCommentCount "" = none ∧
    parseVoteCount none = 0 ∧
    parseVoteCount (some { simpleText := some "" }) = 0 ∧
    parseVoteCount (some { simpleText := some "234" }) = 234 ∧
    parseVoteCount (some { simpleText := some "1,234" }) = 1234 ∧
    parseVoteCount (some { simpleText := some "1.2K" }) = 1200 ∧
    parseVoteCount (some { simpleText := some "45K" }) = 45000 ∧
    parseVoteCount (some { simpleText := some "2.5M" }) = 2500000 ∧
    parseVoteCount (some { simpleText := some "2B" }) = 2000000000 ∧
    parseVoteCount (some { simpleText := some "1.2k" }) = 1200 ∧
    parseVoteCountFromA11y none = 0 ∧
    parseVoteCountFromA11y (some "") = 0 ∧
    parseVoteCountFromA11y (some "234 likes") = 234 ∧
    parseVoteCountFromA11y (some "1,234 likes") = 1234 ∧
    parseVoteCountFromA11y (some "1.2K likes") = 1200 ∧
    parseVoteCountFromA11y (some "2.5M likes") = 2500000 ∧
    parseVoteCountFromA11y (some "2B likes") = 2000000000 := by
  decide

/-- C5 counterexample: on a document carrying a continuation token in both
locations (`ytBothTokens`), `extractCommentsContinuationToken` returns the
legacy two-column token, not the engagement-panel token as claimed. -/
theorem continuation_token_panel_not_first :
    panelContinuationToken ytBothTokens = some "panelTok" ∧
    legacyContinuationToken ytBothTokens = some "legacyTok" ∧
    extractCommentsContinuationToken ytBothTokens ≠ some "panelTok" ∧
    extractCommentsContinuationToken ytBothTokens = some "legacyTok" := by
  decide

/-- C5 (amended): when both locations hold a token, the bootstrapper
returns the legacy two-column-results token: that location is scanned
first, and the engagement-panel location only afterwards. -/
theorem continuation_token_legacy_first
    (d : YtInitialData) (t₁ t₂ : String)
    (hLegacy : legacyContinuationToken d = some t₁)
    (_hPanel : panelContinuationToken d = some t₂) :
    extractCommentsContinuationToken d = some t₁ := by
  unfold extractCommentsContinuationToken
  rw [hLegacy]

/-- C5 witness: the amended priority theorem applied to `ytBothTokens`. -/
theorem continuation_token_legacy_first_witness :
    extractCommentsContinuationToken ytBothTokens = some "legacyTok" :=
  continuation_token_legacy_first ytBothTokens "legacyTok" "panelTok"
    (by decide) (by decide)

/-- C2 counterexample: with cap `maxComments = 7` and page yields
`[5][5]`, exactly 7 comments are retained, but the terminal result has
`completed = true` — not the partial (`completed = false`) result the
claim states: the code counts reaching the cap as completion. -/
theorem cap_reached_not_partial :
    (extractComments envTwoPages optsCap7 20 20).commentCount = 7 ∧
    (extractComments envTwoPages optsCap7 20 20).completed = true := by
  decide

/-- C2 (amended): with cap 7 and page yields `[5][5]`, exactly the first
7 comments are retained, no page is fetched after the cap is reached
(2 fetches in total), and the terminal result is `completed = true`; in
general `completed` is true iff no timeout fired and (no continuation
token remains or the cap was reached) — pending reply tokens do not enter
into it. -/
theorem cap_reached_completed :
    ((extractComments envTwoPages optsCap7 20 20).comments.map (·.cid) =
      ["c1", "c2", "c3", "c4", "c5", "c6", "c7"]) ∧
    (runEngine envTwoPages metaStd 7 true 20 20 (some "t1")).fetchCount = 2 ∧
    (extractComments envTwoPages optsCap7 20 20).completed = true ∧
    (∀ env opts fuelTop fuelReply yt,
      env.page = .html (some yt) →
      areCommentsDisabled yt = false →
      strTruthy (extractCommentsContinuationToken yt) = true →
      (extractComments env opts fuelTop fuelReply).completed =
        (let s := runEngine env (metadataOf opts yt) (effMaxOf opts)
          opts.includeReplies fuelTop fuelReply (extractCommentsContinuationToken yt)
         !s.timedOut && (!strTruthy s.token || decide (effMaxOf opts ≤ s.comments.length)))) := by
  refine ⟨by decide, by decide, by decide, ?_⟩
  intro env opts fuelTop fuelReply yt hpage hdis htok
  unfold extractComments
  simp [hpage, hdis, htok]

/-- C2 witness: the general `completed` formula applied to the concrete
`[5][5]`-with-cap-7 environment. -/
theorem cap_reached_completed_witness :
    (extractComments envTwoPages optsCap7 20 20).completed =
      (let s := runEngine envTwoPages (metadataOf optsCap7 ytWithToken)
        (effMaxOf optsCap7) optsCap7.includeReplies 20 20
        (extractCommentsContinuationToken ytWithToken)
       !s.timedOut && (!strTruthy s.token || decide (effMaxOf optsCap7 ≤ s.comments.length))) :=
  cap_reached_completed.2.2.2 envTwoPages optsCap7 20 20 ytWithToken rfl
    (by decide) (by decide)

/-- C6: with page yields `[5][5][0][0][0][5]` (each page carrying a next
token), the engine stops after the third consecutive empty page — 5 pages
fetched, the trailing 5-item page never requested — and returns exactly
10 comments with `completed = false`; and the consecutive-empty-page
counter is reset by any non-zero yield: on yields
`[5][0][0][5][0][0][0]` (trailing `[5]` never reached) the engine only
aborts after the seventh page, fetching 7 pages for 10 comments, where a
counter that was not reset would have aborted after five. -/
theorem empty_page_abort :
    (extractComments envEmptyRun optsUnlimited 20 20).commentCount = 10 ∧
    (extractComments envEmptyRun optsUnlimited 20 20).completed = false ∧
    (runEngine envEmptyRun metaStd jsMaxSafeInteger true 20 20 (some "t1")).fetchCount = 5 ∧
    (extractComments envResetRun optsUnlimited 20 20).commentCount = 10 ∧
    (runEngine envResetRun metaStd jsMaxSafeInteger true 20 20 (some "t1")).fetchCount = 7 := by
  decide

/-- C9 counterexample: on a video whose initial-state document indicates
comments are disabled, the extraction result *does* carry an error — the
message `Comments disabled for video …` with category `PERMANENT` — so
the outcome is reported as an error (the run driver treats a result with
a `PERMANENT` category as a failed video), contrary to the claim. -/
theorem disabled_result_carries_error :
    (extractComments envDisabled optsCap7 1 1).error =
      some "Comments disabled for video dQw4w9WgXcQ" ∧
    (extractComments envDisabled optsCap7 1 1).errorCategory = some .PERMANENT := by
  decide

/-- C9 (amended): for every video whose initial-state document indicates
comments are disabled, extraction ends immediately with `completed = true`
and an empty comment list, but the result carries the error message
`Comments disabled for video <id>` and the `PERMANENT` error category. -/
theorem disabled_zero_comment_result
    (env : Env) (opts : ExtractCommentsOptions) (fuelTop fuelReply : ℕ)
    (yt : YtInitialData)
    (hpage : env.page = .html (some yt))
    (hdis : areCommentsDisabled yt = true) :
    extractComments env opts fuelTop fuelReply =
      { comments := [], metadata := createEmptyMetadata opts.videoId opts.originalUrl
        commentCount := 0, replyCount := 0, completed := true
        error := some ("Comments disabled for video " ++ opts.videoId)
        errorCategory := some .PERMANENT } := by
  unfold extractComments
  simp [hpage, hdis]

/-- C9 witness: the amended disabled-video theorem applied to the
concrete disabled-state environment. -/
theorem disabled_zero_comment_result_witness :
    extractComments envDisabled optsCap7 1 1 =
      { comments := [], metadata := createEmptyMetadata "dQw4w9WgXcQ" "https://youtu.be/dQw4w9WgXcQ"
        commentCount := 0, replyCount := 0, completed := true
        error := some ("Comments disabled for video dQw4w9WgXcQ")
        errorCategory := some .PERMANENT } :=
  disabled_zero_comment_result envDisabled optsCap7 1 1 ytDisabled rfl (by decide)

/-- C4 counterexample: a legacy record whose author resolves (`alice`)
but whose text is empty is dropped by the parser (`extractComment`
returns `null`), not emitted with empty text as the claim states. -/
theorem legacy_empty_text_dropped :
    extractAuthorName emptyTextRenderer.authorText = "alice" ∧
    extractCommentText emptyTextRenderer.contentText = "" ∧
    strTruthy emptyTextRenderer.commentId = true ∧
    extractComment emptyTextRenderer metaStd .comment none = none := by
  decide

/-- C4 (amended): the drop conditions differ per encoding.  A legacy
record is dropped exactly when its id is missing/empty, its text is
empty, or its author is empty — empty text drops the record.  An entity
record is dropped exactly when its id is missing/empty or its author is
missing/empty; an entity record whose author resolves but whose text is
empty is still emitted, with empty text. -/
theorem record_drop_characterization
    (r : CommentRenderer) (p : CommentEntityPayload) (m : VideoMetadata)
    (ty : CommentType) (pc : Option String) :
    (extractComment r m ty pc = none ↔
      strTruthy r.commentId = false ∨ extractCommentText r.contentText = ""
        ∨ extractAuthorName r.authorText = "") ∧
    (extractCommentFromEntityPayload p m ty pc = none ↔
      strTruthy (p.properties.bind (·.commentId)) = false
        ∨ (p.author.bind (·.displayName)).getD "" = "") ∧
    (∀ c, extractCommentFromEntityPayload p m ty pc = some c →
      c.comment = (p.properties.bind (·.content_content)).getD "") := by
  refine ⟨?_, ?_, ?_⟩
  · unfold extractComment
    cases hc : r.commentId with
    | none => simp [strTruthy]
    | some cid =>
      by_cases h0 : cid = ""
      · subst h0; simp [strTruthy]
      · by_cases h1 : extractCommentText r.contentText = ""
          ∨ extractAuthorName r.authorText = "" <;>
          simp [h0, h1, strTruthy]
  · unfold extractCommentFromEntityPayload
    cases hc : p.properties.bind (·.commentId) with
    | none => simp [strTruthy]
    | some cid =>
      by_cases h0 : cid = ""
      · subst h0; simp [strTruthy]
      · by_cases h1 : (p.author.bind (·.displayName)).getD "" = "" <;>
          simp [h0, h1, strTruthy]
  · intro c h
    unfold extractCommentFromEntityPayload at h
    cases hc : p.properties.bind (·.commentId) with
    | none => rw [hc] at h; exact absurd h (by simp)
    | some cid =>
      rw [hc] at h
      dsimp only at h
      by_cases h0 : cid = ""
      · rw [if_pos h0] at h; exact absurd h (by simp)
      · rw [if_neg h0] at h
        by_cases h1 : (p.author.bind (·.displayName)).getD "" = ""
        · rw [if_pos h1] at h; exact absurd h (by simp)
        · rw [if_neg h1] at h
          cases h
          rfl

/-- C4 witness: the drop characterization applied to the concrete
empty-text records: `emptyTextRenderer` (legacy, dropped because its text
is empty) and `emptyTextEntity` (entity, emitted with empty text). -/
theorem record_drop_characterization_witness :
    extractComment emptyTextRenderer metaStd .comment none = none ∧
    (∀ c, extractCommentFromEntityPayload emptyTextEntity metaStd .comment none = some c →
      c.comment = "") := by
  constructor
  · exact (record_drop_characterization emptyTextRenderer emptyTextEntity metaStd
      .comment none).1.mpr (Or.inr (Or.inl (by decide)))
  · intro c h
    exact (record_drop_characterization emptyTextRenderer emptyTextEntity metaStd
      .comment none).2.2 c h

/-- C10: `validateYouTubeUrl` always returns a mutually consistent
record — `videoId` and `normalizedUrl` are present exactly when
`isValid`, and `error` is present exactly when not `isValid` — and
`validateUrls` places every input into exactly one of the two partitions,
preserving order (the valid entries are the inputs passing the push
condition, the invalid entries are the rest, and the sizes add up). -/
theorem url_validation_consistency :
    (∀ url : String,
      ((validateYouTubeUrl url).videoId.isSome = (validateYouTubeUrl url).isValid) ∧
      ((validateYouTubeUrl url).normalizedUrl.isSome = (validateYouTubeUrl url).isValid) ∧
      ((validateYouTubeUrl url).error.isSome = !(validateYouTubeUrl url).isValid)) ∧
    (∀ urls : List String,
      ((validateUrls urls).1.map (·.url) = urls.filter validPushCond) ∧
      ((validateUrls urls).2.map (·.url) = urls.filter (fun u => !validPushCond u)) ∧
      ((validateUrls urls).1.length + (validateUrls urls).2.length = urls.length)) := by
  constructor
  · intro url
    unfold validateYouTubeUrl
    by_cases h1 : url = ""
    · simp [h1]
    · by_cases h2 : isYouTubeDomain (jsTrim url)
      · cases h3 : extractVideoId (jsTrim url) <;> simp [h1, h2, h3]
      · simp [h1, h2]
  · intro urls
    induction urls with
    | nil => simp [validateUrls]
    | cons u rest ih =>
      obtain ⟨ih1, ih2, ih3⟩ := ih
      by_cases h : validPushCond u = true
      · have h' := h
        unfold validPushCond at h'
        simp only [validateUrls, h', Bool.and_eq_true] at *
        simp only [List.filter_cons, h, if_pos]
        simp_all [Bool.and_eq_true]
        omega
      · have h' : ((validateYouTubeUrl u).isValid && strTruthy (validateYouTubeUrl u).videoId
            && strTruthy (validateYouTubeUrl u).normalizedUrl) = false := by
          unfold validPushCond at h
          simpa using h
        simp only [validateUrls, h']
        simp only [List.filter_cons, h]
        simp_all
        omega

/-- If an entity payload yields a comment, the comment's `cid` is the
payload's `properties.commentId`. -/
theorem entity_comment_cid (p : CommentEntityPayload) (m : VideoMetadata)
    (ty : CommentType) (pc : Option String) (c : CommentOutput)
    (h : extractCommentFromEntityPayload p m ty pc = some c) :
    p.properties.bind (·.commentId) = some c.cid := by
  unfold extractCommentFromEntityPayload at h
  cases hc : p.properties.bind (·.commentId) with
  | none => rw [hc] at h; exact absurd h (by simp)
  | some cid =>
    rw [hc] at h
    dsimp only at h
    by_cases h0 : cid = ""
    · rw [if_pos h0] at h; exact absurd h (by simp)
    · rw [if_neg h0] at h
      by_cases h1 : (p.author.bind (·.displayName)).getD "" = ""
      · rw [if_pos h1] at h; exact absurd h (by simp)
      · rw [if_neg h1] at h
        cases h
        rfl

/-- The entity loop only ever appends, and every appended comment's id is
outside the initial seen set. -/
theorem entityLoop_extends (m : VideoMetadata) :
    ∀ (ms : List EntityMutation) (cs : List CommentOutput) (ids : List String),
      ∃ extra, (entityLoop m ms cs ids).1 = cs ++ extra ∧
        ∀ e ∈ extra, e.cid ∉ ids := by
  intro ms
  induction ms with
  | nil => intro cs ids; exact ⟨[], by simp [entityLoop], by simp⟩
  | cons mu rest ih =>
    intro cs ids
    unfold entityLoop
    cases h1 : mu.payload_commentEntityPayload with
    | none => exact ih cs ids
    | some pe =>
      dsimp only
      cases h2 : pe.properties.bind (·.commentId) with
      | none => exact ih cs ids
      | some pid =>
        dsimp only
        by_cases h3 : pid = ""
        · rw [if_pos h3]; exact ih cs ids
        · rw [if_neg h3]
          by_cases h4 : ids.contains pid
          · rw [if_pos h4]; exact ih cs ids
          · rw [if_neg h4]
            cases h5 : extractCommentFromEntityPayload pe m .comment none with
            | none => exact ih cs ids
            | some c =>
              dsimp only
              obtain ⟨extra, he, hn⟩ := ih (cs ++ [c]) (ids ++ [c.cid])
              refine ⟨c :: extra, by simpa using he, ?_⟩
              intro e hme
              rcases List.mem_cons.mp hme with rfl | hmem
              · have : pid = e.cid := by
                  have := entity_comment_cid pe m .comment none e h5
                  rw [h2] at this
                  exact Option.some_injective _ this
                subst this
                intro hmemids
                exact h4 (List.elem_iff.mpr hmemids)
              · intro hmemids
                exact hn e hmem (by simp [hmemids])

/-- C3: legacy records are parsed first and entity records are strictly
additive — the output comment list is the legacy list followed by entity
comments whose ids avoid every legacy id; in particular, when the legacy
half of a response yields exactly one comment `c` and an entity record
shares its id `x`, the output contains exactly one comment with cid `x`,
namely `c` with its legacy field values. -/
theorem parse_legacy_first (r : ApiResponse) (m : VideoMetadata)
    (c : CommentOutput) (x : String) :
    (∃ extra, (parseCommentsFromResponse r m).comments = (legacyAcc r m).comments ++ extra ∧
      ∀ e ∈ extra, e.cid ∉ (legacyAcc r m).comments.map (·.cid)) ∧
    ((legacyAcc r m).comments = [c] → c.cid = x →
      ((parseCommentsFromResponse r m).comments.filter (fun e => e.cid == x)) = [c]) := by
  have key : ∃ extra, (parseCommentsFromResponse r m).comments =
      (legacyAcc r m).comments ++ extra ∧
      ∀ e ∈ extra, e.cid ∉ (legacyAcc r m).comments.map (·.cid) := by
    unfold parseCommentsFromResponse extractFromFrameworkUpdates
    cases hm : r.frameworkUpdates_entityBatchUpdate_mutations with
    | none => exact ⟨[], by simp, by simp⟩
    | some ms =>
      obtain ⟨extra, he, hn⟩ :=
        entityLoop_extends m ms [] ((legacyAcc r m).comments.map (·.cid))
      exact ⟨extra, by simpa using congrArg ((legacyAcc r m).comments ++ ·) he, hn⟩
  refine ⟨key, ?_⟩
  intro hleg hcx
  obtain ⟨extra, he, hn⟩ := key
  rw [he, hleg, List.filter_append]
  have h1 : List.filter (fun e => e.cid == x) [c] = [c] := by
    simp [List.filter, hcx]
  have h2 : List.filter (fun e => e.cid == x) extra = [] := by
    rw [List.filter_eq_nil_iff]
    intro e hme
    have := hn e hme
    rw [hleg] at this
    simp only [List.map, List.mem_singleton, hcx] at this
    simpa using fun hex => this (by simp [hex])
  rw [h1, h2]
  simp

/-- C3 witness: on the concrete response where a legacy thread and an
entity record share id `x1`, the parser emits exactly one comment with
that id, carrying the legacy field values. -/
theorem parse_legacy_first_witness :
    ((parseCommentsFromResponse respSharedId metaStd).comments.filter
      (fun e => e.cid == "x1")) = [legacyX1] :=
  (parse_legacy_first respSharedId metaStd legacyX1 "x1").2 (by decide) (by decide)


/-! ## Engine structure lemmas (append-only accumulation, loop
composition) -/

/-- The per-page append loop only ever appends. -/
theorem appendUpTo_extends (effMax : ℕ) :
    ∀ (new cs : List CommentOutput), ∃ tl, appendUpTo effMax cs new = cs ++ tl := by
  intro new
  induction new with
  | nil => intro cs; exact ⟨[], by simp [appendUpTo]⟩
  | cons c rest ih =>
    intro cs
    unfold appendUpTo
    split
    · exact ⟨[], by simp⟩
    · split
      · obtain ⟨tl, h⟩ := ih (cs ++ [c])
        exact ⟨c :: tl, by simpa using h⟩
      · exact ih cs

/-- The reply append loop only ever appends. -/
theorem appendRepliesUpTo_extends (effMax : ℕ) :
    ∀ (new cs : List CommentOutput),
      ∃ tl, (appendRepliesUpTo effMax cs new).1 = cs ++ tl := by
  intro new
  induction new with
  | nil => intro cs; exact ⟨[], by simp [appendRepliesUpTo]⟩
  | cons c rest ih =>
    intro cs
    unfold appendRepliesUpTo
    split
    · exact ⟨[], by simp⟩
    · split
      · obtain ⟨tl, h⟩ := ih (cs ++ [c])
        rcases hp : appendRepliesUpTo effMax (cs ++ [c]) rest with ⟨a, b⟩
        rw [hp] at h
        refine ⟨c :: tl, ?_⟩
        simpa using h
      · exact ih cs

/-- Whatever a top-loop iteration body exits with, the accumulated
comments, reply tokens and token are untouched and the loop is marked
stopped. -/
theorem topBody_exit_spec (env : Env) (m : VideoMetadata) (effMax : ℕ)
    (startTime : ℤ) (s : EngineState) (t : String) (s₁ : EngineState)
    (h : topBody env m effMax startTime s t = .exit s₁) :
    s₁.comments = s.comments ∧ s₁.stopped = true ∧
      s₁.replyTokens = s.replyTokens ∧ s₁.token = s.token := by
  unfold topBody at h
  dsimp only at h
  by_cases h1 : TOTAL_EXTRACTION_TIMEOUT_MS ≤ env.clock s.clockIdx - startTime
  · rw [if_pos h1] at h; cases h; exact ⟨rfl, rfl, rfl, rfl⟩
  · rw [if_neg h1] at h
    by_cases h2 : (!s.firstBatchReceived &&
        decide (FIRST_BATCH_DEADLINE_MS ≤ env.clock s.clockIdx - startTime)) = true
    · rw [if_pos h2] at h; cases h; exact ⟨rfl, rfl, rfl, rfl⟩
    · rw [if_neg h2] at h
      cases hf : env.fetch t with
      | fail => rw [hf] at h; dsimp only at h; cases h; exact ⟨rfl, rfl, rfl, rfl⟩
      | thrown sc msg =>
        rw [hf] at h; dsimp only at h; cases h; exact ⟨rfl, rfl, rfl, rfl⟩
      | ok resp =>
        rw [hf] at h
        dsimp only at h
        split at h
        · cases h; exact ⟨rfl, rfl, rfl, rfl⟩
        · cases h

/-- A continuing top-loop iteration body performed a successful fetch and
advanced the state by the parsed page: capped append of the page's
comments, merged reply tokens, next token installed, control flags
untouched. -/
theorem topBody_next_spec (env : Env) (m : VideoMetadata) (effMax : ℕ)
    (startTime : ℤ) (s : EngineState) (t : String) (s₁ : EngineState)
    (h : topBody env m effMax startTime s t = .next s₁) :
    ∃ resp, env.fetch t = .ok resp ∧
      s₁.comments = appendUpTo effMax s.comments
        (parseCommentsFromResponse resp m).comments ∧
      s₁.replyTokens = mergeTokens s.replyTokens
        (parseCommentsFromResponse resp m).replyContinuationTokens ∧
      s₁.token = (parseCommentsFromResponse resp m).nextContinuationToken ∧
      s₁.stopped = s.stopped ∧ s₁.timedOut = s.timedOut := by
  unfold topBody at h
  dsimp only at h
  by_cases h1 : TOTAL_EXTRACTION_TIMEOUT_MS ≤ env.clock s.clockIdx - startTime
  · rw [if_pos h1] at h; cases h
  · rw [if_neg h1] at h
    by_cases h2 : (!s.firstBatchReceived &&
        decide (FIRST_BATCH_DEADLINE_MS ≤ env.clock s.clockIdx - startTime)) = true
    · rw [if_pos h2] at h; cases h
    · rw [if_neg h2] at h
      cases hf : env.fetch t with
      | fail => rw [hf] at h; dsimp only at h; cases h
      | thrown sc msg => rw [hf] at h; dsimp only at h; cases h
      | ok resp =>
        rw [hf] at h
        dsimp only at h
        split at h
        · cases h
        · cases h
          exact ⟨resp, by simp [hf], rfl, rfl, rfl, rfl, rfl⟩

/-- A failing or throwing fetch makes the top-loop body exit with the
comments untouched (provided neither timeout fires at this iteration). -/
theorem topBody_fetch_failure (env : Env) (m : VideoMetadata) (effMax : ℕ)
    (startTime : ℤ) (s : EngineState) (t : String)
    (hclock : ¬ TOTAL_EXTRACTION_TIMEOUT_MS ≤ env.clock s.clockIdx - startTime)
    (hfirst : ¬ ((!s.firstBatchReceived &&
      decide (FIRST_BATCH_DEADLINE_MS ≤ env.clock s.clockIdx - startTime)) = true))
    (hf : env.fetch t = .fail ∨ ∃ sc msg, env.fetch t = .thrown sc msg) :
    ∃ s₁, topBody env m effMax startTime s t = .exit s₁ ∧
      s₁.comments = s.comments ∧ s₁.stopped = true := by
  unfold topBody
  dsimp only
  rw [if_neg hclock, if_neg hfirst]
  rcases hf with hf | ⟨sc, msg, hf⟩ <;> rw [hf]
  · exact ⟨_, rfl, rfl, rfl⟩
  · exact ⟨_, rfl, rfl, rfl⟩

/-- The top-level loop only ever appends to the accumulated comments. -/
theorem runTopLoop_extends (env : Env) (m : VideoMetadata) (effMax : ℕ)
    (startTime : ℤ) :
    ∀ (fuel : ℕ) (s : EngineState),
      ∃ tl, (runTopLoop env m effMax startTime fuel s).comments = s.comments ++ tl := by
  intro fuel
  induction fuel with
  | zero => intro s; exact ⟨[], by simp [runTopLoop]⟩
  | succ fuel ih =>
    intro s
    unfold runTopLoop
    split
    · exact ⟨[], by simp⟩
    · split
      · exact ⟨[], by simp⟩
      · split
        · exact ⟨[], by simp⟩
        · split
          · exact ⟨[], by simp⟩
          · split
            · rename_i s₁ hbody
              obtain ⟨hc, _, _, _⟩ := topBody_exit_spec env m effMax startTime _ _ _ hbody
              exact ⟨[], by simp [hc]⟩
            · rename_i s₁ hbody
              obtain ⟨resp, _, hc, _, _, _, _⟩ :=
                topBody_next_spec env m effMax startTime _ _ _ hbody
              obtain ⟨tlA, hA⟩ := appendUpTo_extends effMax
                (parseCommentsFromResponse resp m).comments s.comments
              obtain ⟨tl, h⟩ := ih s₁
              exact ⟨tlA ++ tl, by rw [h, hc, hA, List.append_assoc]⟩

/-- The inner reply-page loop only ever appends. -/
theorem runReplyPages_extends (env : Env) (m : VideoMetadata) (effMax : ℕ)
    (startTime : ℤ) (parentCid : String) :
    ∀ (fuel : ℕ) (tok : Option String) (s : EngineState),
      ∃ tl, (runReplyPages env m effMax startTime parentCid fuel tok s).comments =
        s.comments ++ tl := by
  intro fuel
  induction fuel with
  | zero => intro tok s; exact ⟨[], by simp [runReplyPages]⟩
  | succ fuel ih =>
    intro tok s
    cases tok with
    | none => exact ⟨[], by simp [runReplyPages]⟩
    | some t =>
      unfold runReplyPages
      split
      · exact ⟨[], by simp⟩
      · split
        · exact ⟨[], by simp⟩
        · split
          · rename_i s₁ hbody
            unfold replyBody at hbody
            dsimp only at hbody
            by_cases h1 : TOTAL_EXTRACTION_TIMEOUT_MS ≤ env.clock s.clockIdx - startTime
            · rw [if_pos h1] at hbody; cases hbody; exact ⟨[], by simp⟩
            · rw [if_neg h1] at hbody
              cases hf : env.fetch t with
              | fail => rw [hf] at hbody; dsimp only at hbody; cases hbody
                        exact ⟨[], by simp⟩
              | thrown sc msg => rw [hf] at hbody; dsimp only at hbody; cases hbody
                                 exact ⟨[], by simp⟩
              | ok resp => rw [hf] at hbody; dsimp only at hbody; cases hbody
          · rename_i s₁ tok' hbody
            unfold replyBody at hbody
            dsimp only at hbody
            by_cases h1 : TOTAL_EXTRACTION_TIMEOUT_MS ≤ env.clock s.clockIdx - startTime
            · rw [if_pos h1] at hbody; cases hbody
            · rw [if_neg h1] at hbody
              cases hf : env.fetch t with
              | fail => rw [hf] at hbody; dsimp only at hbody; cases hbody
              | thrown sc msg => rw [hf] at hbody; dsimp only at hbody; cases hbody
              | ok resp =>
                rw [hf] at hbody
                dsimp only at hbody
                cases hbody
                obtain ⟨tlA, hA⟩ := appendRepliesUpTo_extends effMax
                  (parseRepliesFromResponse resp m parentCid).replies s.comments
                obtain ⟨tl, h⟩ := ih _ _
                exact ⟨tlA ++ tl, by rw [h]; dsimp only; rw [hA, List.append_assoc]⟩

/-- The outer reply loop only ever appends. -/
theorem runReplyParents_extends (env : Env) (m : VideoMetadata) (effMax : ℕ)
    (startTime : ℤ) (innerFuel : ℕ) :
    ∀ (parents : List (String × String)) (s : EngineState),
      ∃ tl, (runReplyParents env m effMax startTime innerFuel parents s).comments =
        s.comments ++ tl := by
  intro parents
  induction parents with
  | nil => intro s; exact ⟨[], by simp [runReplyParents]⟩
  | cons pv rest ih =>
    intro s
    unfold runReplyParents
    split
    · exact ⟨[], by simp⟩
    · dsimp only
      split
      · exact ⟨[], by simp⟩
      · split
        · exact ih _
        · split
          · exact ih _
          · split
            · exact runReplyPages_extends env m effMax startTime _ innerFuel _ _
            · obtain ⟨tlA, hA⟩ :=
                runReplyPages_extends env m effMax startTime pv.1 innerFuel (some pv.2) _
              obtain ⟨tl, h⟩ := ih _
              exact ⟨tlA ++ tl, by rw [h, hA, List.append_assoc]⟩

/-- States satisfying an exit condition of the top loop are fixed points
of `runTopLoop`. -/
theorem runTopLoop_exit (env : Env) (m : VideoMetadata) (effMax : ℕ)
    (startTime : ℤ) (fuel : ℕ) (s : EngineState)
    (h : s.stopped = true ∨ s.token = none ∨ s.token = some "" ∨
      effMax ≤ s.comments.length) :
    runTopLoop env m effMax startTime fuel s = s := by
  cases fuel with
  | zero => simp [runTopLoop]
  | succ fuel =>
    unfold runTopLoop
    by_cases hs : s.stopped = true
    · rw [if_pos hs]
    · rw [if_neg hs]
      rcases h with h | h | h | h
      · exact absurd h hs
      · rw [h]
      · rw [h]
        simp
      · cases ht : s.token with
        | none => rfl
        | some t =>
          dsimp only
          by_cases h0 : t = ""
          · simp [h0]
          · rw [if_neg h0, if_pos h]

/-- Running the top loop for `f₁ + f₂` iterations is running it for `f₁`
and then for `f₂`. -/
theorem runTopLoop_add (env : Env) (m : VideoMetadata) (effMax : ℕ)
    (startTime : ℤ) :
    ∀ (f₁ f₂ : ℕ) (s : EngineState),
      runTopLoop env m effMax startTime (f₁ + f₂) s =
        runTopLoop env m effMax startTime f₂
          (runTopLoop env m effMax startTime f₁ s) := by
  intro f₁
  induction f₁ with
  | zero =>
    intro f₂ s
    rw [Nat.zero_add]
    rfl
  | succ f₁ ih =>
    intro f₂ s
    by_cases hexit : s.stopped = true ∨ s.token = none ∨ s.token = some "" ∨
      effMax ≤ s.comments.length
    · rw [runTopLoop_exit env m effMax startTime (f₁ + 1 + f₂) s hexit,
        runTopLoop_exit env m effMax startTime (f₁ + 1) s hexit,
        runTopLoop_exit env m effMax startTime f₂ s hexit]
    · have h1 : ¬ s.stopped = true := fun h => hexit (Or.inl h)
      have h2 : ¬ s.token = none := fun h => hexit (Or.inr (Or.inl h))
      cases ht : s.token with
      | none => exact absurd ht h2
      | some t =>
        have h3 : ¬ t = "" := fun h => hexit (Or.inr (Or.inr (Or.inl (h ▸ ht))))
        have h4 : ¬ effMax ≤ s.comments.length :=
          fun h => hexit (Or.inr (Or.inr (Or.inr h)))
        rw [Nat.succ_add, runTopLoop]
        conv_rhs => rw [runTopLoop]
        rw [if_neg h1, if_neg h1, ht]
        dsimp only
        rw [if_neg h3, if_neg h3, if_neg h4, if_neg h4]
        cases hb : topBody env m effMax startTime s t with
        | exit s₁ =>
          dsimp only
          obtain ⟨_, hstop, _, _⟩ := topBody_exit_spec env m effMax startTime s t s₁ hb
          rw [runTopLoop_exit env m effMax startTime f₂ s₁ (Or.inl hstop)]
        | next s₁ =>
          dsimp only
          exact ih f₂ s₁

/-- On the successful-bootstrap path, the extraction result's comment
list is the engine's. -/
theorem extractComments_main_comments (env : Env) (opts : ExtractCommentsOptions)
    (fuelTop fuelReply : ℕ) (yt : YtInitialData)
    (hpage : env.page = .html (some yt))
    (hdis : areCommentsDisabled yt = false)
    (htok : strTruthy (extractCommentsContinuationToken yt) = true) :
    (extractComments env opts fuelTop fuelReply).comments =
      (runEngine env (metadataOf opts yt) (effMaxOf opts) opts.includeReplies
        fuelTop fuelReply (extractCommentsContinuationToken yt)).comments := by
  unfold extractComments
  simp [hpage, hdis, htok]

/-- The engine only appends to whatever the top loop accumulated. -/
theorem runEngine_extends (env : Env) (m : VideoMetadata) (effMax : ℕ)
    (includeReplies : Bool) (fuelTop fuelReply : ℕ) (tok0 : Option String) :
    ∃ tl, (runEngine env m effMax includeReplies fuelTop fuelReply tok0).comments =
      (runTopLoop env m effMax (env.clock 0) fuelTop (initState tok0)).comments ++ tl := by
  unfold runEngine
  dsimp only
  split
  · exact runReplyParents_extends env m effMax (env.clock 0) fuelReply _ _
  · exact ⟨[], by simp⟩

/-- C1: a failed mid-loop page fetch (retry wrapper reporting failure, or
a thrown error) stops the top-level phase with the accumulated comments
untouched; and everything accumulated by any prefix of the top loop
survives — as a prefix — into the final `extractComments` result, which
is therefore never empty once any comment has been accumulated. -/
theorem mid_loop_failure_preserves_comments :
    (∀ (env : Env) (m : VideoMetadata) (effMax : ℕ) (startTime : ℤ) (fuel : ℕ)
        (s : EngineState) (t : String),
      s.stopped = false → s.token = some t → t ≠ "" → s.comments.length < effMax →
      ¬ TOTAL_EXTRACTION_TIMEOUT_MS ≤ env.clock s.clockIdx - startTime →
      ¬ ((!s.firstBatchReceived &&
          decide (FIRST_BATCH_DEADLINE_MS ≤ env.clock s.clockIdx - startTime)) = true) →
      (env.fetch t = .fail ∨ ∃ sc msg, env.fetch t = .thrown sc msg) →
      (runTopLoop env m effMax startTime (fuel + 1) s).comments = s.comments) ∧
    (∀ (env : Env) (opts : ExtractCommentsOptions) (fuelTop fuelReply : ℕ)
        (yt : YtInitialData) (f₁ f₂ : ℕ),
      env.page = .html (some yt) →
      areCommentsDisabled yt = false →
      strTruthy (extractCommentsContinuationToken yt) = true →
      fuelTop = f₁ + f₂ →
      ∃ tail,
        (extractComments env opts fuelTop fuelReply).comments =
          (runTopLoop env (metadataOf opts yt) (effMaxOf opts) (env.clock 0) f₁
            (initState (extractCommentsContinuationToken yt))).comments ++ tail ∧
        ((runTopLoop env (metadataOf opts yt) (effMaxOf opts) (env.clock 0) f₁
            (initState (extractCommentsContinuationToken yt))).comments ≠ [] →
          (extractComments env opts fuelTop fuelReply).comments ≠ [])) := by
  constructor
  · intro env m effMax startTime fuel s t hstop ht h0 hcap hclock hfirst hf
    unfold runTopLoop
    rw [if_neg (by simp [hstop]), ht]
    dsimp only
    rw [if_neg h0, if_neg (Nat.not_le.mpr hcap)]
    obtain ⟨s₁, hb, hc, _⟩ :=
      topBody_fetch_failure env m effMax startTime s t hclock hfirst hf
    rw [hb]
    exact hc
  · intro env opts fuelTop fuelReply yt f₁ f₂ hpage hdis htok hfuel
    subst hfuel
    obtain ⟨tl1, h1⟩ := runEngine_extends env (metadataOf opts yt) (effMaxOf opts)
      opts.includeReplies (f₁ + f₂) fuelReply (extractCommentsContinuationToken yt)
    have hadd := runTopLoop_add env (metadataOf opts yt) (effMaxOf opts)
      (env.clock 0) f₁ f₂ (initState (extractCommentsContinuationToken yt))
    obtain ⟨tl0, h0⟩ := runTopLoop_extends env (metadataOf opts yt) (effMaxOf opts)
      (env.clock 0) f₂
      (runTopLoop env (metadataOf opts yt) (effMaxOf opts) (env.clock 0) f₁
        (initState (extractCommentsContinuationToken yt)))
    have hmain := extractComments_main_comments env opts (f₁ + f₂) fuelReply yt
      hpage hdis htok
    refine ⟨tl0 ++ tl1, ?_, ?_⟩
    · rw [hmain, h1, hadd, h0, List.append_assoc]
    · intro hne
      rw [hmain, h1, hadd, h0, List.append_assoc]
      intro hcontra
      exact hne (List.append_eq_nil.mp hcontra).1

/-- C1 witness: one good page of two comments, then the retry wrapper
reports failure for the second page — the extraction still returns a
non-empty comment list. -/
theorem mid_loop_failure_preserves_comments_witness :
    (extractComments envThenFail optsUnlimited 20 20).comments ≠ [] := by
  obtain ⟨tail, _, hne⟩ := mid_loop_failure_preserves_comments.2 envThenFail
    optsUnlimited 20 20 ytWithToken 1 19 rfl (by decide) (by decide) rfl
  exact hne (by decide)

/-! ## Reply-parent invariant machinery -/

theorem replyParentInv_nil : ReplyParentInv [] := by
  intro pre c post heq
  exact absurd heq (by simp)

/-- A list of top-level comments satisfies the invariant vacuously. -/
theorem replyParentInv_of_all_comment (cs : List CommentOutput)
    (h : ∀ c ∈ cs, c.type = CommentType.comment) : ReplyParentInv cs := by
  intro pre c post heq hc
  have hmem : c ∈ cs := heq ▸ List.mem_append_right pre (List.mem_cons_self c post)
  rw [h c hmem] at hc
  cases hc

/-- Appending one element preserves the invariant when the new element,
if a reply, has a suitable parent already in the list. -/
theorem replyParentInv_snoc (cs : List CommentOutput) (c : CommentOutput)
    (hInv : ReplyParentInv cs)
    (hw : c.type = CommentType.reply →
      ∃ p, p ∈ cs ∧ p.type = CommentType.comment ∧ c.replyToCid = some p.cid) :
    ReplyParentInv (cs ++ [c]) := by
  intro pre d post heq hd
  rcases post.eq_nil_or_concat with rfl | ⟨post', r', rfl⟩
  · obtain ⟨hcs, hcd⟩ := List.append_inj' heq rfl
    have hc : c = d := by simpa using hcd
    subst hc
    subst hcs
    exact hw hd
  · have heq' : cs ++ [c] = (pre ++ d :: post') ++ [r'] := by
      rw [heq]; simp
    obtain ⟨hcs, hcr⟩ := List.append_inj' heq' rfl
    exact hInv pre d post' hcs hd

/-- Every prefix of an invariant-satisfying list satisfies the
invariant. -/
theorem replyParentInv_take (cs : List CommentOutput) (n : ℕ)
    (hInv : ReplyParentInv cs) : ReplyParentInv (cs.take n) := by
  intro pre d post heq hd
  have hsplit : cs = pre ++ d :: (post ++ cs.drop n) := by
    conv_lhs => rw [← List.take_append_drop n cs]
    rw [heq]
    simp
  exact hInv pre d (post ++ cs.drop n) hsplit hd

/-- Field facts of a successfully extracted legacy comment. -/
theorem extractComment_stamped (r : CommentRenderer) (m : VideoMetadata)
    (ty : CommentType) (pc : Option String) (c : CommentOutput)
    (h : extractComment r m ty pc = some c) : StampedComment m ty pc c := by
  unfold extractComment at h
  cases hc : r.commentId with
  | none => rw [hc] at h; cases h
  | some cid =>
    rw [hc] at h
    dsimp only at h
    by_cases h0 : cid = ""
    · rw [if_pos h0] at h; cases h
    · rw [if_neg h0] at h
      by_cases h1 : extractCommentText r.contentText = "" ∨ extractAuthorName r.authorText = ""
      · rw [if_pos h1] at h; cases h
      · rw [if_neg h1] at h
        cases h
        push_neg at h1
        exact ⟨rfl, rfl, h0, h1.2, rfl, rfl⟩

/-- Field facts of a successfully extracted entity comment. -/
theorem extractEntity_stamped (p : CommentEntityPayload) (m : VideoMetadata)
    (ty : CommentType) (pc : Option String) (c : CommentOutput)
    (h : extractCommentFromEntityPayload p m ty pc = some c) :
    StampedComment m ty pc c := by
  unfold extractCommentFromEntityPayload at h
  cases hc : p.properties.bind (·.commentId) with
  | none => rw [hc] at h; cases h
  | some cid =>
    rw [hc] at h
    dsimp only at h
    by_cases h0 : cid = ""
    · rw [if_pos h0] at h; cases h
    · rw [if_neg h0] at h
      by_cases h1 : (p.author.bind (·.displayName)).getD "" = ""
      · rw [if_pos h1] at h; cases h
      · rw [if_neg h1] at h
        cases h
        exact ⟨rfl, rfl, h0, h1, rfl, rfl⟩

/-- For a stamped comment, schema validation reduces to the metadata
having a non-empty video id and page url. -/
theorem validate_of_stamped (m : VideoMetadata) (ty : CommentType)
    (pc : Option String) (c : CommentOutput) (h : StampedComment m ty pc c) :
    validateCommentOutput c = true ↔ (m.videoId ≠ "" ∧ m.finalUrl ≠ "") := by
  obtain ⟨_, _, hcid, hauthor, hvid, hurl⟩ := h
  unfold validateCommentOutput
  rw [hvid, hurl]
  simp [hcid, hauthor]

/-- Membership after a JS-map set. -/
theorem jsMapSet_mem (mp : List (String × String)) (k v : String)
    (kv : String × String) (h : kv ∈ jsMapSet mp k v) :
    kv.1 = k ∨ kv ∈ mp := by
  unfold jsMapSet at h
  split at h
  · obtain ⟨p, hp, hf⟩ := List.mem_map.mp h
    by_cases hk : p.1 = k
    · rw [if_pos hk] at hf
      left
      rw [← hf]
    · rw [if_neg hk] at hf
      right
      rw [← hf]
      exact hp
  · rcases List.mem_append.mp h with h | h
    · right; exact h
    · left
      have : kv = (k, v) := by simpa using h
      rw [this]

/-- Membership after merging parsed reply tokens. -/
theorem mergeTokens_mem :
    ∀ (b a : List (String × String)) (kv : String × String),
      kv ∈ mergeTokens a b → kv ∈ a ∨ ∃ v, (kv.1, v) ∈ b := by
  intro b
  induction b with
  | nil => intro a kv h; exact Or.inl (by simpa [mergeTokens] using h)
  | cons p rest ih =>
    intro a kv h
    obtain ⟨k, v⟩ := p
    rcases ih (jsMapSet a k v) kv h with h | ⟨v', hv'⟩
    · rcases jsMapSet_mem a k v kv h with h | h
      · exact Or.inr ⟨v, by rw [h]; exact List.mem_cons_self _ _⟩
      · exact Or.inl h
    · exact Or.inr ⟨v', List.mem_cons_of_mem _ hv'⟩

/-- Every comment in the capped append comes from one side. -/
theorem appendUpTo_mem (effMax : ℕ) :
    ∀ (new cs : List CommentOutput) (c : CommentOutput),
      c ∈ appendUpTo effMax cs new → c ∈ cs ∨ c ∈ new := by
  intro new
  induction new with
  | nil => intro cs c h; exact Or.inl (by simpa [appendUpTo] using h)
  | cons d rest ih =>
    intro cs c h
    unfold appendUpTo at h
    split at h
    · exact Or.inl h
    · split at h
      · rcases ih (cs ++ [d]) c h with h | h
        · rcases List.mem_append.mp h with h | h
          · exact Or.inl h
          · exact Or.inr (by simpa using Or.inl (by simpa using h))
        · exact Or.inr (List.mem_cons_of_mem d h)
      · rcases ih cs c h with h | h
        · exact Or.inl h
        · exact Or.inr (List.mem_cons_of_mem d h)

/-- The accumulated length never shrinks under the capped append. -/
theorem appendUpTo_length_le (effMax : ℕ) (new cs : List CommentOutput) :
    cs.length ≤ (appendUpTo effMax cs new).length := by
  obtain ⟨tl, h⟩ := appendUpTo_extends effMax new cs
  rw [h]
  simp

/-- If the capped append ends below the cap, every valid input comment
made it in. -/
theorem appendUpTo_complete (effMax : ℕ) :
    ∀ (new cs : List CommentOutput),
      (appendUpTo effMax cs new).length < effMax →
      ∀ c ∈ new, validateCommentOutput c = true → c ∈ appendUpTo effMax cs new := by
  intro new
  induction new with
  | nil => intro cs _ c h; cases h
  | cons d rest ih =>
    intro cs hlen c hc hval
    unfold appendUpTo at hlen ⊢
    by_cases hcap : effMax ≤ cs.length
    · rw [if_pos hcap] at hlen
      exact absurd hlen (Nat.not_lt.mpr hcap)
    · rw [if_neg hcap] at hlen ⊢
      rcases List.mem_cons.mp hc with rfl | hmem
      · rw [if_pos hval] at hlen ⊢
        obtain ⟨tl, h⟩ := appendUpTo_extends effMax rest (cs ++ [c])
        rw [h]
        exact List.mem_append_left tl (List.mem_append_right cs (by simp))
      · by_cases hv : validateCommentOutput d = true
        · rw [if_pos hv] at hlen ⊢
          exact ih (cs ++ [d]) hlen c hmem hval
        · rw [if_neg hv] at hlen ⊢
          exact ih cs hlen c hmem hval

/-- One thread-comment step preserves the accumulator invariant. -/
theorem processItemThread_AccOk (m : VideoMetadata) (acc : ParseAcc)
    (item : ResponseItem) (h : AccOk m acc) :
    AccOk m (processItemThread m acc item) := by
  unfold processItemThread
  cases item.commentThreadRenderer with
  | none => exact h
  | some thread =>
    dsimp only
    cases thread.comment_commentRenderer with
    | none => exact h
    | some renderer =>
      dsimp only
      cases hx : extractComment renderer m .comment none with
      | none => exact h
      | some c =>
        have hst := extractComment_stamped renderer m .comment none c hx
        dsimp only
        constructor
        · intro d hd
          rcases List.mem_append.mp hd with hd | hd
          · exact h.1 d hd
          · have hdc : d = c := by simpa using hd
            rw [hdc]
            exact hst
        · intro kv hkv
          cases hrt : extractReplyContinuationToken
              thread.replies_commentRepliesRenderer_contents with
          | none =>
            rw [hrt] at hkv
            dsimp only at hkv
            obtain ⟨p, hp, hpid, hpst⟩ := h.2 kv hkv
            exact ⟨p, List.mem_append_left _ hp, hpid, hpst⟩
          | some tok =>
            rw [hrt] at hkv
            dsimp only at hkv
            by_cases hrc : c.replyCount > 0
            · rw [if_pos hrc] at hkv
              rcases jsMapSet_mem acc.replyTokens c.cid tok kv hkv with hk | hk
              · exact ⟨c, List.mem_append_right _ (by simp), hk.symm, hst⟩
              · obtain ⟨p, hp, hpid, hpst⟩ := h.2 kv hk
                exact ⟨p, List.mem_append_left _ hp, hpid, hpst⟩
            · rw [if_neg hrc] at hkv
              obtain ⟨p, hp, hpid, hpst⟩ := h.2 kv hkv
              exact ⟨p, List.mem_append_left _ hp, hpid, hpst⟩

/-- One full item step preserves the accumulator invariant (the
continuation half only rewrites the next-page token). -/
theorem processItem_AccOk (m : VideoMetadata) (acc : ParseAcc)
    (item : ResponseItem) (h : AccOk m acc) :
    AccOk m (processItem m acc item) := by
  unfold processItem
  cases item.continuationItemRenderer with
  | none => exact processItemThread_AccOk m acc item h
  | some cont => exact processItemThread_AccOk m acc item h

theorem processItems_AccOk (m : VideoMetadata) :
    ∀ (items : List ResponseItem) (acc : ParseAcc),
      AccOk m acc → AccOk m (processItems m items acc) := by
  intro items
  induction items with
  | nil => intro acc h; exact h
  | cons item rest ih =>
    intro acc h
    exact ih (processItem m acc item) (processItem_AccOk m acc item h)

theorem processEndpoint_AccOk (m : VideoMetadata) (acc : ParseAcc)
    (e : Endpoint) (h : AccOk m acc) : AccOk m (processEndpoint m acc e) := by
  unfold processEndpoint
  cases e.reloadContinuationItemsCommand_continuationItems with
  | none =>
    cases e.appendContinuationItemsAction_continuationItems with
    | none => exact h
    | some items => exact processItems_AccOk m items acc h
  | some items =>
    cases e.appendContinuationItemsAction_continuationItems with
    | none => exact processItems_AccOk m items acc h
    | some items2 =>
      exact processItems_AccOk m items2 _ (processItems_AccOk m items acc h)

theorem processEndpoints_AccOk (m : VideoMetadata) :
    ∀ (es : List Endpoint) (acc : ParseAcc),
      AccOk m acc → AccOk m (processEndpoints m es acc) := by
  intro es
  induction es with
  | nil => intro acc h; exact h
  | cons e rest ih =>
    intro acc h
    exact ih (processEndpoint m acc e) (processEndpoint_AccOk m acc e h)

/-- The legacy half of a parsed response satisfies the accumulator
invariant. -/
theorem legacyAcc_AccOk (r : ApiResponse) (m : VideoMetadata) :
    AccOk m (legacyAcc r m) := by
  have h0 : AccOk m {} := ⟨by simp [ParseAcc.comments], by simp [ParseAcc.replyTokens]⟩
  unfold legacyAcc
  cases r.onResponseReceivedEndpoints with
  | none => exact h0
  | some endpoints => exact processEndpoints_AccOk m endpoints {} h0

/-- Entity-loop outputs beyond the input are stamped top-level
comments. -/
theorem entityLoop_stamped (m : VideoMetadata) :
    ∀ (ms : List EntityMutation) (cs : List CommentOutput) (ids : List String)
      (e : CommentOutput), e ∈ (entityLoop m ms cs ids).1 →
      e ∈ cs ∨ StampedComment m CommentType.comment none e := by
  intro ms
  induction ms with
  | nil =>
    intro cs ids e h
    exact Or.inl (by simpa [entityLoop] using h)
  | cons mu rest ih =>
    intro cs ids e h
    unfold entityLoop at h
    cases h1 : mu.payload_commentEntityPayload with
    | none => rw [h1] at h; exact ih cs ids e h
    | some pe =>
      rw [h1] at h
      dsimp only at h
      cases h2 : pe.properties.bind (·.commentId) with
      | none => rw [h2] at h; exact ih cs ids e h
      | some pid =>
        rw [h2] at h
        dsimp only at h
        by_cases h3 : pid = ""
        · rw [if_pos h3] at h; exact ih cs ids e h
        · rw [if_neg h3] at h
          by_cases h4 : ids.contains pid
          · rw [if_pos h4] at h; exact ih cs ids e h
          · rw [if_neg h4] at h
            cases h5 : extractCommentFromEntityPayload pe m .comment none with
            | none => rw [h5] at h; exact ih cs ids e h
            | some c =>
              rw [h5] at h
              dsimp only at h
              rcases ih (cs ++ [c]) (ids ++ [c.cid]) e h with hmem | hst
              · rcases List.mem_append.mp hmem with hmem | hmem
                · exact Or.inl hmem
                · have hec : e = c := by simpa using hmem
                  rw [hec]
                  exact Or.inr (extractEntity_stamped pe m .comment none c h5)
              · exact Or.inr hst

/-- Every comment a response parses is a stamped top-level comment, and
every reply-token key has a matching top-level comment among the parsed
comments. -/
theorem parse_spec (r : ApiResponse) (m : VideoMetadata) :
    (∀ c ∈ (parseCommentsFromResponse r m).comments,
      StampedComment m CommentType.comment none c) ∧
    (∀ kv ∈ (parseCommentsFromResponse r m).replyContinuationTokens,
      ∃ c, c ∈ (parseCommentsFromResponse r m).comments ∧ c.cid = kv.1 ∧
        StampedComment m CommentType.comment none c) := by
  have hleg := legacyAcc_AccOk r m
  constructor
  · intro c hc
    unfold parseCommentsFromResponse at hc
    dsimp only at hc
    rcases List.mem_append.mp hc with hc | hc
    · exact hleg.1 c hc
    · unfold extractFromFrameworkUpdates at hc
      cases hm : r.frameworkUpdates_entityBatchUpdate_mutations with
      | none => rw [hm] at hc; cases hc
      | some ms =>
        rw [hm] at hc
        rcases entityLoop_stamped m ms [] _ c hc with hmem | hst
        · cases hmem
        · exact hst
  · intro kv hkv
    have hkv' : kv ∈ (legacyAcc r m).replyTokens := hkv
    obtain ⟨c, hc, hcid, hst⟩ := hleg.2 kv hkv'
    refine ⟨c, ?_, hcid, hst⟩
    unfold parseCommentsFromResponse
    dsimp only
    exact List.mem_append_left _ hc

/-- Every parsed reply is stamped with kind `reply` and the supplied
parent id. -/
theorem parseReplies_stamped (resp : ApiResponse) (m : VideoMetadata)
    (parentCid : String) :
    ∀ r ∈ (parseRepliesFromResponse resp m parentCid).replies,
      StampedComment m CommentType.reply (some parentCid) r := by
  have hstep : ∀ (item : ResponseItem) (st : ParseRepliesResult) (r : CommentOutput),
      r ∈ (replyItemStep m parentCid st item).replies →
      r ∈ st.replies ∨ StampedComment m CommentType.reply (some parentCid) r := by
    have hcore : ∀ (item : ResponseItem) (st : ParseRepliesResult) (r : CommentOutput),
        r ∈ (match item.commentRenderer with
          | none => st
          | some rr =>
            match extractComment rr m .reply (some parentCid) with
            | some reply => { st with replies := st.replies ++ [reply] }
            | none => st).replies →
        r ∈ st.replies ∨ StampedComment m CommentType.reply (some parentCid) r := by
      intro item st r h'
      cases hcr : item.commentRenderer with
      | none => rw [hcr] at h'; exact Or.inl h'
      | some rr =>
        rw [hcr] at h'
        dsimp only at h'
        cases hx : extractComment rr m .reply (some parentCid) with
        | none => rw [hx] at h'; exact Or.inl h'
        | some reply =>
          rw [hx] at h'
          dsimp only at h'
          rcases List.mem_append.mp h' with h' | h'
          · exact Or.inl h'
          · have hrr : r = reply := by simpa using h'
            rw [hrr]
            exact Or.inr (extractComment_stamped rr m .reply (some parentCid) reply hx)
    intro item st r h
    unfold replyItemStep at h
    cases hcc : item.continuationItemRenderer with
    | none => rw [hcc] at h; exact hcore item st r h
    | some cont => rw [hcc] at h; exact hcore item st r h
  have hitems : ∀ (items : List ResponseItem) (st : ParseRepliesResult)
      (r : CommentOutput), r ∈ (replyItems m parentCid items st).replies →
      r ∈ st.replies ∨ StampedComment m CommentType.reply (some parentCid) r := by
    intro items
    induction items with
    | nil => intro st r h; exact Or.inl h
    | cons item rest ih =>
      intro st r h
      rcases ih (replyItemStep m parentCid st item) r h with h | h
      · exact hstep item st r h
      · exact Or.inr h
  have hend : ∀ (es : List Endpoint) (st : ParseRepliesResult) (r : CommentOutput),
      r ∈ (replyEndpoints m parentCid es st).replies →
      r ∈ st.replies ∨ StampedComment m CommentType.reply (some parentCid) r := by
    intro es
    induction es with
    | nil => intro st r h; exact Or.inl h
    | cons e rest ih =>
      intro st r h
      unfold replyEndpoints at h
      cases ha : e.appendContinuationItemsAction_continuationItems with
      | none => rw [ha] at h; exact ih st r h
      | some items =>
        rw [ha] at h
        rcases ih _ r h with h | h
        · exact hitems items st r h
        · exact Or.inr h
  intro r h
  unfold parseRepliesFromResponse at h
  cases hoe : resp.onResponseReceivedEndpoints with
  | none => rw [hoe] at h; exact absurd h (List.not_mem_nil r)
  | some endpoints =>
    rw [hoe] at h
    rcases hend endpoints {} r h with h | h
    · exact absurd h (List.not_mem_nil r)
    · exact h

/-- One continuing top-loop iteration preserves the state invariant. -/
theorem topBody_TopInv (env : Env) (m : VideoMetadata) (effMax : ℕ)
    (startTime : ℤ) (s : EngineState) (t : String) (s₁ : EngineState)
    (hInv : TopInv m effMax s)
    (hb : topBody env m effMax startTime s t = .next s₁) :
    TopInv m effMax s₁ := by
  obtain ⟨resp, _, hc, hrt, _, _, _⟩ := topBody_next_spec env m effMax startTime s t s₁ hb
  constructor
  · intro c hcmem
    rw [hc] at hcmem
    rcases appendUpTo_mem effMax _ _ c hcmem with h | h
    · exact hInv.1 c h
    · exact (parse_spec resp m).1 c h
  · intro kv hkv hmeta hlen
    rw [hrt] at hkv
    rw [hc] at hlen
    rcases mergeTokens_mem _ _ kv hkv with hkv' | ⟨v, hv⟩
    · have hlen' : s.comments.length < effMax :=
        lt_of_le_of_lt (appendUpTo_length_le effMax _ _) hlen
      obtain ⟨c, hcm, hcid, hty⟩ := hInv.2 kv hkv' hmeta hlen'
      obtain ⟨tl, htl⟩ := appendUpTo_extends effMax
        (parseCommentsFromResponse resp m).comments s.comments
      refine ⟨c, ?_, hcid, hty⟩
      rw [hc, htl]
      exact List.mem_append_left tl hcm
    · obtain ⟨c, hcm, hcid, hst⟩ := (parse_spec resp m).2 (kv.1, v) hv
      have hval : validateCommentOutput c = true :=
        (validate_of_stamped m _ _ c hst).mpr hmeta
      have hin : c ∈ appendUpTo effMax s.comments
          (parseCommentsFromResponse resp m).comments :=
        appendUpTo_complete effMax _ s.comments hlen c hcm hval
      exact ⟨c, by rw [hc]; exact hin, hcid, hst.1⟩

/-- The whole top loop preserves the state invariant. -/
theorem runTopLoop_TopInv (env : Env) (m : VideoMetadata) (effMax : ℕ)
    (startTime : ℤ) :
    ∀ (fuel : ℕ) (s : EngineState), TopInv m effMax s →
      TopInv m effMax (runTopLoop env m effMax startTime fuel s) := by
  intro fuel
  induction fuel with
  | zero => intro s h; simpa [runTopLoop] using h
  | succ fuel ih =>
    intro s h
    unfold runTopLoop
    split
    · exact h
    · split
      · exact h
      · split
        · exact h
        · split
          · exact h
          · split
            · rename_i s₁ hbody
              obtain ⟨hcom, _, hrt, _⟩ :=
                topBody_exit_spec env m effMax startTime _ _ _ hbody
              constructor
              · rw [hcom]; exact h.1
              · rw [hcom, hrt]; exact h.2
            · rename_i s₁ hbody
              exact ih s₁ (topBody_TopInv env m effMax startTime _ _ _ h hbody)

/-- Appending a batch of parsed replies for parent `pcid` keeps the
reply-parent invariant, provided the base list (when the metadata can
validate at all) contains a top-level comment with that id. -/
theorem replyParentInv_appendReplies (m : VideoMetadata) (effMax : ℕ)
    (pcid : String) (base : List CommentOutput)
    (Hw : MetaOk m → ∃ p, p ∈ base ∧ p.cid = pcid ∧ p.type = CommentType.comment) :
    ∀ (new cs : List CommentOutput),
      (∃ tl, cs = base ++ tl) → ReplyParentInv cs →
      (∀ r ∈ new, StampedComment m CommentType.reply (some pcid) r) →
      ReplyParentInv (appendRepliesUpTo effMax cs new).1 ∧
      ∃ tl, (appendRepliesUpTo effMax cs new).1 = base ++ tl := by
  intro new
  induction new with
  | nil =>
    intro cs hext hinv _
    exact ⟨by simpa [appendRepliesUpTo] using hinv, by simpa [appendRepliesUpTo] using hext⟩
  | cons d rest ih =>
    intro cs hext hinv hstamp
    unfold appendRepliesUpTo
    by_cases hcap : effMax ≤ cs.length
    · rw [if_pos hcap]
      exact ⟨hinv, hext⟩
    · rw [if_neg hcap]
      by_cases hv : validateCommentOutput d = true
      · rw [if_pos hv]
        have hstd := hstamp d (List.mem_cons_self d rest)
        have hmeta : MetaOk m := (validate_of_stamped m _ _ d hstd).mp hv
        obtain ⟨p, hp, hpcid, hpty⟩ := Hw hmeta
        obtain ⟨tl0, htl0⟩ := hext
        have hinv' : ReplyParentInv (cs ++ [d]) := by
          refine replyParentInv_snoc cs d hinv (fun _ => ⟨p, ?_, hpty, ?_⟩)
          · rw [htl0]; exact List.mem_append_left tl0 hp
          · rw [hstd.2.1, hpcid]
        obtain ⟨hinv2, hext2⟩ := ih (cs ++ [d])
          ⟨tl0 ++ [d], by rw [htl0]; simp⟩ hinv'
          (fun r hr => hstamp r (List.mem_cons_of_mem d hr))
        rcases hp2 : appendRepliesUpTo effMax (cs ++ [d]) rest with ⟨a, b⟩
        rw [hp2] at hinv2 hext2
        exact ⟨by simpa using hinv2, by simpa using hext2⟩
      · rw [if_neg hv]
        exact ih cs hext hinv (fun r hr => hstamp r (List.mem_cons_of_mem d hr))

/-- The reply-page loop for one parent keeps the invariant and only
appends past the base list. -/
theorem runReplyPages_inv (env : Env) (m : VideoMetadata) (effMax : ℕ)
    (startTime : ℤ) (pcid : String) (base : List CommentOutput)
    (Hw : MetaOk m → ∃ p, p ∈ base ∧ p.cid = pcid ∧ p.type = CommentType.comment) :
    ∀ (fuel : ℕ) (tok : Option String) (s : EngineState),
      (∃ tl, s.comments = base ++ tl) → ReplyParentInv s.comments →
      ReplyParentInv (runReplyPages env m effMax startTime pcid fuel tok s).comments ∧
      ∃ tl, (runReplyPages env m effMax startTime pcid fuel tok s).comments =
        base ++ tl := by
  intro fuel
  induction fuel with
  | zero => intro tok s hext hinv; exact ⟨by simpa [runReplyPages] using hinv,
      by simpa [runReplyPages] using hext⟩
  | succ fuel ih =>
    intro tok s hext hinv
    cases tok with
    | none => exact ⟨by simpa [runReplyPages] using hinv,
        by simpa [runReplyPages] using hext⟩
    | some t =>
      unfold runReplyPages
      split
      · exact ⟨hinv, hext⟩
      · split
        · exact ⟨hinv, hext⟩
        · split
          · rename_i s₁ hbody
            unfold replyBody at hbody
            dsimp only at hbody
            by_cases h1 : TOTAL_EXTRACTION_TIMEOUT_MS ≤ env.clock s.clockIdx - startTime
            · rw [if_pos h1] at hbody; cases hbody; exact ⟨hinv, hext⟩
            · rw [if_neg h1] at hbody
              cases hf : env.fetch t with
              | fail => rw [hf] at hbody; dsimp only at hbody; cases hbody
                        exact ⟨hinv, hext⟩
              | thrown sc msg => rw [hf] at hbody; dsimp only at hbody; cases hbody
                                 exact ⟨hinv, hext⟩
              | ok resp => rw [hf] at hbody; dsimp only at hbody; cases hbody
          · rename_i s₁ tok' hbody
            unfold replyBody at hbody
            dsimp only at hbody
            by_cases h1 : TOTAL_EXTRACTION_TIMEOUT_MS ≤ env.clock s.clockIdx - startTime
            · rw [if_pos h1] at hbody; cases hbody
            · rw [if_neg h1] at hbody
              cases hf : env.fetch t with
              | fail => rw [hf] at hbody; dsimp only at hbody; cases hbody
              | thrown sc msg => rw [hf] at hbody; dsimp only at hbody; cases hbody
              | ok resp =>
                rw [hf] at hbody
                dsimp only at hbody
                cases hbody
                obtain ⟨hinv2, hext2⟩ := replyParentInv_appendReplies m effMax pcid base Hw
                  (parseRepliesFromResponse resp m pcid).replies s.comments hext hinv
                  (parseReplies_stamped resp m pcid)
                exact ih _ _ hext2 hinv2

/-- The outer reply loop keeps the invariant, given that every parent key
it will visit has (for validating metadata) a top-level comment in the
base list. -/
theorem runReplyParents_inv (env : Env) (m : VideoMetadata) (effMax : ℕ)
    (startTime : ℤ) (innerFuel : ℕ) (base : List CommentOutput) :
    ∀ (parents : List (String × String)) (s : EngineState),
      (∀ kv ∈ parents, MetaOk m →
        ∃ p, p ∈ base ∧ p.cid = kv.1 ∧ p.type = CommentType.comment) →
      (∃ tl, s.comments = base ++ tl) → ReplyParentInv s.comments →
      ReplyParentInv (runReplyParents env m effMax startTime innerFuel parents s).comments ∧
      ∃ tl, (runReplyParents env m effMax startTime innerFuel parents s).comments =
        base ++ tl := by
  intro parents
  induction parents with
  | nil => intro s _ hext hinv; exact ⟨by simpa [runReplyParents] using hinv,
      by simpa [runReplyParents] using hext⟩
  | cons pv rest ih =>
    obtain ⟨pcid, ptok⟩ := pv
    intro s HP hext hinv
    unfold runReplyParents
    split
    · exact ⟨hinv, hext⟩
    · dsimp only
      split
      · exact ⟨hinv, hext⟩
      · have HPrest : ∀ kv ∈ rest, MetaOk m →
            ∃ p, p ∈ base ∧ p.cid = kv.1 ∧ p.type = CommentType.comment :=
          fun kv hkv => HP kv (List.mem_cons_of_mem _ hkv)
        split
        · exact ih _ HPrest hext hinv
        · split
          · exact ih _ HPrest hext hinv
          · obtain ⟨hinv1, hext1⟩ := runReplyPages_inv env m effMax startTime pcid base
              (HP (pcid, ptok) (List.mem_cons_self _ _)) innerFuel (some ptok)
              { s with clockIdx := s.clockIdx + 1 } hext hinv
            split
            · exact ⟨hinv1, hext1⟩
            · exact ih _ HPrest hext1 hinv1

/-- The engine's final comment list satisfies the reply-parent
invariant. -/
theorem runEngine_inv (env : Env) (m : VideoMetadata) (effMax : ℕ)
    (includeReplies : Bool) (fuelTop fuelReply : ℕ) (tok0 : Option String) :
    ReplyParentInv (runEngine env m effMax includeReplies fuelTop fuelReply tok0).comments := by
  have hTop : TopInv m effMax
      (runTopLoop env m effMax (env.clock 0) fuelTop (initState tok0)) :=
    runTopLoop_TopInv env m effMax (env.clock 0) fuelTop (initState tok0)
      ⟨fun c hc => absurd hc (List.not_mem_nil c),
       fun kv hkv => absurd hkv (List.not_mem_nil kv)⟩
  have hInvTop : ReplyParentInv
      (runTopLoop env m effMax (env.clock 0) fuelTop (initState tok0)).comments :=
    replyParentInv_of_all_comment _ (fun c hc => (hTop.1 c hc).1)
  unfold runEngine
  dsimp only
  split
  · rename_i hguard
    simp only [Bool.and_eq_true, decide_eq_true_eq] at hguard
    exact (runReplyParents_inv env m effMax (env.clock 0) fuelReply
      (runTopLoop env m effMax (env.clock 0) fuelTop (initState tok0)).comments
      (runTopLoop env m effMax (env.clock 0) fuelTop (initState tok0)).replyTokens
      (runTopLoop env m effMax (env.clock 0) fuelTop (initState tok0))
      (fun kv hkv hmeta => hTop.2 kv hkv hmeta hguard.1.2)
      ⟨[], by simp⟩ hInvTop).1
  · exact hInvTop

/-- C7: at every point of an extraction, every reply in the accumulated
output has a non-null `replyToCid` equal to the cid of a top-level
comment occurring earlier in the same output: the final comment list of
`extractComments` satisfies the reply-parent invariant, and (because the
accumulation is append-only) so does each of its prefixes — i.e. every
intermediate accumulated output. -/
theorem reply_parent_invariant :
    ∀ (env : Env) (opts : ExtractCommentsOptions) (fuelTop fuelReply : ℕ),
      ReplyParentInv ((extractComments env opts fuelTop fuelReply).comments) ∧
      ∀ n, ReplyParentInv (((extractComments env opts fuelTop fuelReply).comments).take n) := by
  intro env opts fuelTop fuelReply
  have hmain : ReplyParentInv ((extractComments env opts fuelTop fuelReply).comments) := by
    unfold extractComments
    cases env.page with
    | fetchFailed msg cat => exact replyParentInv_nil
    | fetchThrown sc msg => exact replyParentInv_nil
    | html data =>
      cases data with
      | none => exact replyParentInv_nil
      | some yt =>
        dsimp only
        by_cases hdis : areCommentsDisabled yt = true
        · rw [if_pos hdis]; exact replyParentInv_nil
        · rw [if_neg hdis]
          by_cases htok : (!strTruthy (extractCommentsContinuationToken yt)) = true
          · rw [if_pos htok]; exact replyParentInv_nil
          · rw [if_neg htok]
            exact runEngine_inv env (metadataOf opts yt) (effMaxOf opts)
              opts.includeReplies fuelTop fuelReply
              (extractCommentsContinuationToken yt)
  exact ⟨hmain, fun n => replyParentInv_take _ n hmain⟩

end YT
